import Mathlib

set_option linter.unusedVariables false

/- Shallow embedding of the Halite II simulation kernel, translated from
   src/environment/core/Halite.cpp and src/environment/core/SimulationEvent.cpp.
   C++ doubles are modelled as rationals; the square root computed by
   std::sqrt and the Euclidean distances computed by hlt::Location::distance
   are passed explicitly as parameters where the source computes them.
   Declarations whose C++ counterpart lives in headers that are not part of
   the two source files (hlt.hpp, SimulationEvent.hpp) carry a doc comment
   beginning with "Modelled from the spec:". -/

namespace Halite

/-- Two-dimensional position, mirroring hlt::Location (doubles as rationals). -/
structure Location where
  pos_x : ℚ
  pos_y : ℚ
deriving DecidableEq, Repr

/-- Two-dimensional velocity, mirroring hlt::Velocity. -/
structure Velocity where
  vel_x : ℚ
  vel_y : ℚ
deriving DecidableEq, Repr

/-- Modelled from the spec: hlt::Location::move_by (hlt.hpp, not under src/)
advances a position along a velocity for the given fraction of a time step
(linear extrapolation of the trajectory). -/
def Location.move_by (loc : Location) (vel : Velocity) (time : ℚ) : Location :=
  { pos_x := loc.pos_x + vel.vel_x * time, pos_y := loc.pos_y + vel.vel_y * time }

/-- Docking state machine of a mobile unit, mirroring hlt::DockingStatus. -/
inductive DockingStatus where
  | Undocked
  | Docking
  | Docked
  | Undocking
deriving DecidableEq, Repr

/-- Mobile unit state, mirroring hlt::Ship (health is a bounded non-negative
integer in the source, modelled as ℕ). -/
structure Ship where
  location : Location
  velocity : Velocity
  radius : ℚ
  health : ℕ
  docking_status : DockingStatus
  docked_planet : ℕ
  weapon_cooldown : ℕ
deriving DecidableEq, Repr

/-- Stationary node state, mirroring hlt::Planet. -/
structure Planet where
  location : Location
  radius : ℚ
  health : ℕ
  owned : Bool
  owner : ℕ
  docked_ships : List ℕ
  docking_spots : ℕ
  frozen : Bool
deriving DecidableEq, Repr

/-- Modelled from the spec: hlt::Entity::is_alive (hlt.hpp, not under src/)
holds when the entity's health is positive. -/
def Ship.is_alive (s : Ship) : Prop := 0 < s.health

instance (s : Ship) : Decidable s.is_alive := by unfold Ship.is_alive; infer_instance

/-- Modelled from the spec: a node is alive while its health is positive. -/
def Planet.is_alive (p : Planet) : Prop := 0 < p.health

instance (p : Planet) : Decidable p.is_alive := by unfold Planet.is_alive; infer_instance

/-- Tagged entity reference, mirroring hlt::EntityId (ship / planet / invalid). -/
inductive EntityId where
  | ship (player : ℕ) (idx : ℕ)
  | planet (idx : ℕ)
  | invalid
deriving DecidableEq, Repr

/-- Owning-fleet id of an entity reference (hlt::EntityId::player_id). -/
def EntityId.player (id : EntityId) : ℕ :=
  match id with
  | .ship p _ => p
  | .planet _ => 0
  | .invalid => 0

/-- Modelled from the spec: the game-constant table hlt::GameConstants
(hlt.hpp, not under src/), kept as an explicit parameter. Only the constants
the verified claims mention are included. -/
structure Consts where
  WEAPON_DAMAGE : ℕ
  WEAPON_COOLDOWN : ℕ
  EXPLOSION_RADIUS : ℚ
  MAX_SHIP_HEALTH : ℚ
deriving Repr

/-- Mirrors planet_explosion_damage (Halite.cpp:64-80). The value assigned to
damage is non-negative throughout the in-range branch for sane constants, and
the C++ cast to unsigned short truncates toward zero, so the cast is modelled
by the integer floor clamped to ℕ; the out-of-range branch returns the
unsigned-short maximum exactly as the source does. -/
def planet_explosion_damage (C : Consts) (planet : Planet) (distance : ℚ) : ℕ :=
  if distance < planet.radius then 65535
  else
    let distance_from_crust := distance - planet.radius
    if distance_from_crust ≤ C.EXPLOSION_RADIUS then
      let damage := C.MAX_SHIP_HEALTH -
        distance_from_crust / (2 * C.EXPLOSION_RADIUS) * C.MAX_SHIP_HEALTH
      (⌊damage⌋).toNat
    else 0

/-- Modelled from the spec: hlt::Map::within_bounds (hlt.hpp, not under src/);
the world is the convex rectangle with 0 ≤ x < width and 0 ≤ y < height. -/
def within_bounds (map_width map_height : ℚ) (loc : Location) : Prop :=
  0 ≤ loc.pos_x ∧ loc.pos_x < map_width ∧ 0 ≤ loc.pos_y ∧ loc.pos_y < map_height

instance (w h : ℚ) (loc : Location) : Decidable (within_bounds w h loc) := by
  unfold within_bounds; infer_instance

/-- Mirrors the desertion-time computation of Halite::process_events
(Halite.cpp:547-562): time starts at 1000000.0 and each per-axis crossing
time is taken only when the corresponding velocity component is positive. -/
def desertion_time (map_width map_height : ℚ) (loc : Location) (vel : Velocity) : ℚ :=
  let time : ℚ := 1000000
  let time :=
    if vel.vel_x > 0 then
      let t1 := -loc.pos_x / vel.vel_x
      let time := if t1 < time ∧ t1 ≥ 0 then t1 else time
      let t2 := (map_width - loc.pos_x) / vel.vel_x
      if t2 < time ∧ t2 ≥ 0 then t2 else time
    else time
  if vel.vel_y > 0 then
    let t3 := -loc.pos_y / vel.vel_y
    let time := if t3 < time ∧ t3 ≥ 0 then t3 else time
    let t4 := (map_height - loc.pos_y) / vel.vel_y
    if t4 < time ∧ t4 ≥ 0 then t4 else time
  else time

/-- Mirrors the desertion-detection guard of Halite::process_events
(Halite.cpp:543-570): a Desertion event is registered, at the computed time,
exactly when the linearly extrapolated end-of-step position leaves the world. -/
def desertion_check (map_width map_height : ℚ) (loc : Location) (vel : Velocity) :
    Option ℚ :=
  let final_location := loc.move_by vel 1
  if within_bounds map_width map_height final_location then none
  else some (desertion_time map_width map_height loc vel)

/-- Quadratic coefficient a of collision_time (SimulationEvent.cpp:119). -/
def ct_a (vel1 vel2 : Velocity) : ℚ :=
  (vel1.vel_x - vel2.vel_x) ^ 2 + (vel1.vel_y - vel2.vel_y) ^ 2

/-- Quadratic coefficient b of collision_time (SimulationEvent.cpp:120). -/
def ct_b (loc1 loc2 : Location) (vel1 vel2 : Velocity) : ℚ :=
  2 * ((loc1.pos_x - loc2.pos_x) * (vel1.vel_x - vel2.vel_x) +
       (loc1.pos_y - loc2.pos_y) * (vel1.vel_y - vel2.vel_y))

/-- Quadratic coefficient c of collision_time (SimulationEvent.cpp:121). -/
def ct_c (r : ℚ) (loc1 loc2 : Location) : ℚ :=
  (loc1.pos_x - loc2.pos_x) ^ 2 + (loc1.pos_y - loc2.pos_y) ^ 2 - r ^ 2

/-- Discriminant of collision_time (SimulationEvent.cpp:123). -/
def ct_disc (r : ℚ) (loc1 loc2 : Location) (vel1 vel2 : Velocity) : ℚ :=
  ct_b loc1 loc2 vel1 vel2 ^ 2 - 4 * ct_a vel1 vel2 * ct_c r loc1 loc2

/-- Mirrors collision_time (SimulationEvent.cpp:99-158). The parameter
sqrt_disc stands for the value the source computes as std::sqrt(disc) in the
two-real-roots branch; theorems using that branch assume 0 ≤ sqrt_disc and
sqrt_disc ^ 2 = ct_disc r loc1 loc2 vel1 vel2, which characterise the real
square root. -/
def collision_time (r : ℚ) (loc1 loc2 : Location) (vel1 vel2 : Velocity)
    (sqrt_disc : ℚ) : Bool × ℚ :=
  let a := ct_a vel1 vel2
  let b := ct_b loc1 loc2 vel1 vel2
  let c := ct_c r loc1 loc2
  let disc := ct_disc r loc1 loc2 vel1 vel2
  if a = 0 then
    if b = 0 then
      if c ≤ 0 then (true, 0) else (false, 0)
    else
      let t := -c / b
      if t ≥ 0 then (true, t) else (false, 0)
  else if disc = 0 then
    (true, -b / (2 * a))
  else if disc > 0 then
    let t1 := -b + sqrt_disc
    let t2 := -b - sqrt_disc
    if t1 ≥ 0 ∧ t2 ≥ 0 then (true, min t1 t2 / (2 * a))
    else (true, max t1 t2 / (2 * a))
  else (false, 0)

/-- Grid column count of CollisionMap (SimulationEvent.cpp:23). -/
def cm_width (map_width CELL_SIZE : ℚ) : ℤ := ⌈map_width / CELL_SIZE⌉

/-- Grid row count of CollisionMap (SimulationEvent.cpp:24). -/
def cm_height (map_height CELL_SIZE : ℚ) : ℤ := ⌈map_height / CELL_SIZE⌉

/-- Cell coordinates read by CollisionMap::test (SimulationEvent.cpp:48-97),
listed in the order the source accesses them. static_cast of a double to int
truncates toward zero; query positions lie inside the world and are therefore
non-negative, so the cast is modelled by the floor. -/
def collision_map_test_cells (width height : ℤ) (CELL_SIZE : ℚ)
    (location : Location) (radius : ℚ) : List (ℤ × ℤ) :=
  let cell_x : ℤ := ⌊location.pos_x / CELL_SIZE⌋
  let cell_y : ℤ := ⌊location.pos_y / CELL_SIZE⌋
  let real_x := CELL_SIZE * (cell_x : ℚ)
  let real_y := CELL_SIZE * (cell_y : ℚ)
  let exceeds_left := location.pos_x - radius < real_x ∧ cell_x > 0
  let exceeds_right := location.pos_x + radius ≥ real_x + CELL_SIZE ∧ cell_x < width
  let exceeds_top := location.pos_y - radius < real_y ∧ cell_y > 0
  let exceeds_bottom := location.pos_y + radius ≥ real_y + CELL_SIZE ∧ cell_y < height
  [(cell_x, cell_y)]
  ++ (if exceeds_left then
        [(cell_x - 1, cell_y)]
        ++ (if exceeds_top then [(cell_x - 1, cell_y - 1)] else [])
        ++ (if exceeds_bottom then [(cell_x - 1, cell_y + 1)] else [])
      else [])
  ++ (if exceeds_top then [(cell_x, cell_y - 1)] else [])
  ++ (if exceeds_bottom then [(cell_x, cell_y + 1)] else [])
  ++ (if exceeds_right then
        [(cell_x + 1, cell_y)]
        ++ (if exceeds_top then [(cell_x + 1, cell_y - 1)] else [])
        ++ (if exceeds_bottom then [(cell_x + 1, cell_y + 1)] else [])
      else [])

/-- Per-turn phases of the orchestrator, one constructor per call made by
Halite::process_next_frame (Halite.cpp:721-749). -/
inductive Phase where
  | retrieveMoves
  | docking
  | moves (move_no : ℕ)
  | events (move_no : ℕ)
  | movement (move_no : ℕ)
  | production
  | drag
  | cooldowns
deriving DecidableEq, Repr

/-- Call sequence of Halite::process_next_frame (Halite.cpp:721-749):
retrieve_moves, process_docking, then for each queued-move index
process_moves, process_events, process_movement, then process_production,
process_drag and process_cooldowns. -/
def process_next_frame_phases (max_queued_moves : ℕ) : List Phase :=
  [Phase.retrieveMoves, Phase.docking]
  ++ (List.range max_queued_moves).flatMap
      (fun n => [Phase.moves n, Phase.events n, Phase.movement n])
  ++ [Phase.production, Phase.drag, Phase.cooldowns]

/-- Mirrors the unfreeze loop at the end of Halite::process_docking
(Halite.cpp:244-248). The C++ range-for binds hlt::Planet by value (no
reference), so frozen is cleared on a discarded copy and the planet list is
left unchanged; the discarded copy is kept explicit here. -/
def unfreeze_planets (planets : List Planet) : List Planet :=
  planets.map (fun planet =>
    let _copy : Planet := { planet with frozen := false }
    planet)

/-- The planet-side dock admission test of Halite::process_moves
(Halite.cpp:385): the dock command is dropped when the planet is dead, the
ship is out of dock range, or the planet is frozen. The distance validation
hlt::Ship::can_dock is not under src/ and is abstracted as a boolean. -/
def dock_admitted (planet : Planet) (can_dock : Bool) : Bool :=
  decide planet.is_alive && can_dock && !planet.frozen

/-- Association-list lookup for the ship collection. The source keeps a
std::vector (indexed by player) of std::map from entity index to ship; it is
flattened here to one list keyed by the (player id, entity index) pair. -/
def alist_get (k : ℕ × ℕ) : List ((ℕ × ℕ) × Ship) → Option Ship
  | [] => none
  | kv :: rest => if kv.1 = k then some kv.2 else alist_get k rest

/-- In-place update of one ship through its key, mirroring mutation through
the reference obtained from the std::map; keys that are absent are untouched. -/
def alist_modify (k : ℕ × ℕ) (f : Ship → Ship) (l : List ((ℕ × ℕ) × Ship)) :
    List ((ℕ × ℕ) × Ship) :=
  l.map (fun kv => if kv.1 = k then (kv.1, f kv.2) else kv)

/-- In-place update of the n-th element of a list, mirroring mutation through
a reference into the planet vector. -/
def list_modify {α : Type} (f : α → α) : ℕ → List α → List α
  | _, [] => []
  | 0, p :: rest => f p :: rest
  | n + 1, p :: rest => p :: list_modify f n rest

/-- World state: all mobile units (flattened per-player maps) and the planet
vector, mirroring hlt::Map. -/
structure GameMap where
  ships : List ((ℕ × ℕ) × Ship)
  planets : List Planet
deriving DecidableEq, Repr

/-- Health of the referenced entity, if it is present in the map. -/
def health_of (m : GameMap) : EntityId → Option ℕ
  | .ship p i => (alist_get (p, i) m.ships).map Ship.health
  | .planet n => (m.planets[n]?).map Planet.health
  | .invalid => none

/-- Position of the referenced entity, if present. -/
def location_of (m : GameMap) : EntityId → Option Location
  | .ship p i => (alist_get (p, i) m.ships).map Ship.location
  | .planet n => (m.planets[n]?).map Planet.location
  | .invalid => none

/-- Radius of the referenced entity, if present. -/
def radius_of (m : GameMap) : EntityId → Option ℚ
  | .ship p i => (alist_get (p, i) m.ships).map Ship.radius
  | .planet n => (m.planets[n]?).map Planet.radius
  | .invalid => none

/-- hlt::Map::get_ship through an entity reference: only ship references
resolve (the source asserts the tag). -/
def get_ship_id (m : GameMap) : EntityId → Option Ship
  | .ship p i => alist_get (p, i) m.ships
  | _ => none

/-- Entity index carried by a reference (hlt::EntityId::entity_index). -/
def EntityId.index (id : EntityId) : ℕ :=
  match id with
  | .ship _ i => i
  | .planet n => n
  | .invalid => 0

/-- Update one ship in place. -/
def modify_ship (m : GameMap) (p i : ℕ) (f : Ship → Ship) : GameMap :=
  { m with ships := alist_modify (p, i) f m.ships }

/-- Update one planet in place. -/
def modify_planet (m : GameMap) (n : ℕ) (f : Planet → Planet) : GameMap :=
  { m with planets := list_modify f n m.planets }

/-- Overwrite the referenced entity's health. -/
def set_health (m : GameMap) (id : EntityId) (h : ℕ) : GameMap :=
  match id with
  | .ship p i => modify_ship m p i (fun s => { s with health := h })
  | .planet n => modify_planet m n (fun pl => { pl with health := h })
  | .invalid => m

/-- Modelled from the spec: hlt::Map::unsafe_kill_entity (hlt.hpp, not under
src/) marks the entity destroyed without any side effect; with health as the
liveness flag this zeroes the health. -/
def raw_kill (m : GameMap) (id : EntityId) : GameMap := set_health m id 0

/-- Overwrite a ship's weapon cooldown through its reference. -/
def set_cooldown (m : GameMap) (id : EntityId) (cd : ℕ) : GameMap :=
  match id with
  | .ship p i => modify_ship m p i (fun s => { s with weapon_cooldown := cd })
  | _ => m

/-- Modelled from the spec: hlt::Ship::reset_docking_status (hlt.hpp, not
under src/) returns the unit to the Undocked state with no docked node. -/
def Ship.reset_docking (s : Ship) : Ship :=
  { s with docking_status := .Undocked, docked_planet := 0 }

/-- Modelled from the spec: hlt::Map::test (hlt.hpp, not under src/) scans
all live entities and returns those whose position lies within the given
radius of the query position; dist stands for the Euclidean distance the
source computes in doubles. -/
def map_test (dist : Location → Location → ℚ) (m : GameMap)
    (location : Location) (radius : ℚ) : List EntityId :=
  (m.ships.filter (fun kv =>
      decide (kv.2.is_alive ∧ dist location kv.2.location ≤ radius))).map
    (fun kv => EntityId.ship kv.1.1 kv.1.2)
  ++ ((List.range m.planets.length).filter (fun n =>
      match m.planets[n]? with
      | some pl => decide (pl.is_alive ∧ dist location pl.location ≤ radius)
      | none => false)).map EntityId.planet

/-- DestroyedEvent record appended to full_frame_events by kill_entity. -/
structure DestroyRec where
  id : EntityId
  location : Location
  radius : ℚ
  time : ℚ
deriving DecidableEq, Repr

/-- Simulation state threaded through resolution: the world map, the
DestroyedEvent records of the current frame, and the per-fleet damage_dealt
scoring counters (Halite::damage_dealt). -/
structure HState where
  map : GameMap
  destroyed : List DestroyRec
  damage_dealt : ℕ → ℕ

mutual

/-- Mirrors Halite::damage_entity (Halite.cpp:82-92). The fuel argument
bounds the depth of the mutual destruction cascade; the properties proved
below hold for every fuel value, and witnesses use a fuel larger than the
cascade depth of their concrete scenario. A reference that does not resolve
(which would throw in the source) leaves the state unchanged. -/
def damage_entity (C : Consts) (dist : Location → Location → ℚ) :
    ℕ → EntityId → ℕ → ℚ → HState → HState
  | 0, _, _, _, st => st
  | Nat.succ fuel, id, damage, time, st =>
    match health_of st.map id with
    | none => st
    | some h =>
      if h ≤ damage then kill_entity C dist fuel id time st
      else { st with map := set_health st.map id (h - damage) }

/-- Mirrors Halite::kill_entity (Halite.cpp:94-153): a dead entity returns
immediately; otherwise a DestroyedEvent is recorded, a destroyed ship is
detached from its node, a destroyed node undocks its units and deals the
area-of-effect explosion damage to every caught entity other than itself,
and finally the entity itself is marked destroyed. -/
def kill_entity (C : Consts) (dist : Location → Location → ℚ) :
    ℕ → EntityId → ℚ → HState → HState
  | 0, _, _, st => st
  | Nat.succ fuel, id, time, st =>
    match id with
    | .ship p i =>
      match alist_get (p, i) st.map.ships with
      | none => st
      | some ship =>
        if ship.is_alive then
          let location := ship.location.move_by ship.velocity time
          let st1 := { st with
            destroyed := st.destroyed ++ [DestroyRec.mk id location ship.radius time] }
          let st2 :=
            if ship.docking_status ≠ DockingStatus.Undocked then
              let m1 := modify_planet st1.map ship.docked_planet
                (fun pl => { pl with docked_ships :=
                  pl.docked_ships.filter (fun j => j ≠ i) })
              let m2 := modify_ship m1 p i (fun s =>
                { s with docking_status := .Undocked, docked_planet := 0 })
              { st1 with map := m2 }
            else st1
          { st2 with map := raw_kill st2.map id }
        else st
    | .planet n =>
      match st.map.planets[n]? with
      | none => st
      | some planet =>
        if planet.is_alive then
          let st1 := { st with
            destroyed := st.destroyed ++
              [DestroyRec.mk id planet.location planet.radius time] }
          let m2 := planet.docked_ships.foldl
            (fun m idx => modify_ship m planet.owner idx Ship.reset_docking)
            st1.map
          let st2 := { st1 with map := m2 }
          let caught := map_test dist st2.map planet.location
            (planet.radius + C.EXPLOSION_RADIUS)
          let st3 := caught.foldl (fun acc target_id =>
            if target_id ≠ id then
              match location_of acc.map target_id, radius_of acc.map target_id with
              | some tloc, some trad =>
                let d := dist planet.location tloc
                let damage := planet_explosion_damage C planet (d - trad)
                damage_entity C dist fuel target_id damage time acc
              | _, _ => acc
            else acc) st2
          { st3 with map := raw_kill st3.map id }
        else st
    | .invalid => st

end

/-- Mirrors Halite::compute_damage (Halite.cpp:34-62); the pair is (damage
applied to the first entity, damage applied to the second entity), exactly as
the two components are consumed at Halite.cpp:641-643. The InvalidEntity
branch throws in the source and is modelled as none; lookups that would
throw are modelled the same way. -/
def compute_damage (m : GameMap) (self_id other_id : EntityId) :
    Option (ℕ × ℕ) :=
  match self_id with
  | .planet _ =>
    (get_ship_id m other_id).map (fun other => (other.health, other.health))
  | .ship p i =>
    match alist_get (p, i) m.ships with
    | none => none
    | some self =>
      match other_id with
      | .ship q j =>
        (alist_get (q, j) m.ships).map (fun other => (self.health, other.health))
      | _ => some (self.health, self.health)
  | .invalid => none

/-- The Collision case of the batch-resolution loop (Halite.cpp:640-645):
compute the damage pair, then apply the first component to the first entity
and the second component to the second entity. -/
def resolve_collision (C : Consts) (dist : Location → Location → ℚ)
    (fuel : ℕ) (id1 id2 : EntityId) (time : ℚ) (st : HState) : HState :=
  match compute_damage st.map id1 id2 with
  | none => st
  | some damage =>
    let st1 := damage_entity C dist fuel id1 damage.1 time st
    damage_entity C dist fuel id2 damage.2 time st1

/-- Event kinds of the detector, mirroring SimulationEventType. -/
inductive SimulationEventType where
  | Attack
  | Collision
  | Desertion
deriving DecidableEq, Repr

/-- Detected event, mirroring SimulationEvent (two participant references and
the fractional in-step time). -/
structure SimulationEvent where
  type : SimulationEventType
  id1 : EntityId
  id2 : EntityId
  time : ℚ
deriving DecidableEq, Repr

/-- Batch-local accumulator of the first resolution pass: the evolving state,
the per-attacker engagement count (target_count in the source) and the
per-attacker engaged-target list (the AttackEvent aggregation). -/
structure BatchAcc where
  st : HState
  target_count : EntityId → ℕ
  attack_targets : EntityId → List EntityId

/-- Mirrors the update_targets lambda (Halite.cpp:613-636): an engagement by
a live, off-cooldown, undocked attacker records the target, bumps the
attacker's engagement count, and credits the full WEAPON_DAMAGE to the
attacker's fleet damage_dealt counter; the cooldown itself is deliberately
not touched here. -/
def update_targets (C : Consts) (src target : EntityId) (time : ℚ)
    (acc : BatchAcc) : BatchAcc :=
  match get_ship_id acc.st.map src with
  | none => acc
  | some attacker =>
    if ¬ attacker.is_alive ∨ attacker.weapon_cooldown > 0 ∨
        attacker.docking_status ≠ DockingStatus.Undocked then acc
    else
      let dd := fun pl =>
        if pl = src.player then acc.st.damage_dealt pl + C.WEAPON_DAMAGE
        else acc.st.damage_dealt pl
      let tc := fun id =>
        if id = src then acc.target_count src + 1 else acc.target_count id
      let tgts := fun id =>
        if id = src then acc.attack_targets src ++ [target]
        else acc.attack_targets id
      { st := { acc.st with damage_dealt := dd },
        target_count := tc, attack_targets := tgts }

/-- One event of the first resolution pass (Halite.cpp:638-659): collisions
and desertions apply damage immediately, attacks aggregate engagements in
both directions. -/
def batch_step1 (C : Consts) (dist : Location → Location → ℚ) (fuel : ℕ)
    (ev : SimulationEvent) (acc : BatchAcc) : BatchAcc :=
  match ev.type with
  | .Collision =>
    { acc with st := resolve_collision C dist fuel ev.id1 ev.id2 ev.time acc.st }
  | .Desertion =>
    match health_of acc.st.map ev.id1 with
    | none => acc
    | some damage =>
      { acc with st := damage_entity C dist fuel ev.id1 damage ev.time acc.st }
  | .Attack =>
    update_targets C ev.id2 ev.id1 ev.time
      (update_targets C ev.id1 ev.id2 ev.time acc)

/-- Accumulated fractional damage per target, keyed by (player id, entity
index); absent keys read as 0, mirroring the DamageMap's operator[]. -/
def dm_get (k : ℕ × ℕ) : List ((ℕ × ℕ) × ℚ) → ℚ
  | [] => 0
  | kv :: rest => if kv.1 = k then kv.2 else dm_get k rest

/-- Store a value under a key of the damage map, updating in place when the
key is present and appending otherwise. -/
def dm_put (k : ℕ × ℕ) (v : ℚ) : List ((ℕ × ℕ) × ℚ) → List ((ℕ × ℕ) × ℚ)
  | [] => [(k, v)]
  | kv :: rest => if kv.1 = k then (k, v) :: rest else kv :: dm_put k v rest

/-- Mirrors the update_damage lambda (Halite.cpp:661-676): an eligible
attacker first has its weapon cooldown set, then deposits
WEAPON_DAMAGE / target_count[src] on top of the target's previously
accumulated fractional damage. In ℚ a division by a zero engagement count
reads 0 where the double arithmetic of the source would produce infinity;
no theorem below exercises that corner. -/
def update_damage (C : Consts) (target_count : EntityId → ℕ)
    (src target : EntityId) (acc : HState × List ((ℕ × ℕ) × ℚ)) :
    HState × List ((ℕ × ℕ) × ℚ) :=
  match get_ship_id acc.1.map src with
  | none => acc
  | some attacker =>
    if ¬ attacker.is_alive ∨ attacker.weapon_cooldown > 0 ∨
        attacker.docking_status ≠ DockingStatus.Undocked then acc
    else
      let st := { acc.1 with map := set_cooldown acc.1.map src C.WEAPON_COOLDOWN }
      let prev := dm_get (target.player, target.index) acc.2
      let new_damage := (C.WEAPON_DAMAGE : ℚ) / (target_count src : ℚ)
      (st, dm_put (target.player, target.index) (prev + new_damage) acc.2)

/-- One event of the second resolution pass (Halite.cpp:678-683): attacks
deposit damage in both directions, other events are skipped. -/
def batch_step2 (C : Consts) (target_count : EntityId → ℕ)
    (ev : SimulationEvent) (acc : HState × List ((ℕ × ℕ) × ℚ)) :
    HState × List ((ℕ × ℕ) × ℚ) :=
  if ev.type = SimulationEventType.Attack then
    update_damage C target_count ev.id2 ev.id1
      (update_damage C target_count ev.id1 ev.id2 acc)
  else acc

/-- Mirrors Halite::process_damage (Halite.cpp:697-709): each accumulated
fractional total is truncated to an integer (the unsigned short cast, floor
on the non-negative totals) and applied in a single damage_entity call. The
source iterates an unordered_map; the fold follows insertion order. -/
def process_damage (C : Consts) (dist : Location → Location → ℚ) (fuel : ℕ)
    (dm : List ((ℕ × ℕ) × ℚ)) (time : ℚ) (st : HState) : HState :=
  dm.foldl (fun acc kv =>
    damage_entity C dist fuel (EntityId.ship kv.1.1 kv.1.2) (⌊kv.2⌋).toNat
      time acc) st

/-- Time stamp used by process_damage: the time of the last event of the
batch (simultaneous_events.back().time, Halite.cpp:691). -/
def batch_time (evs : List SimulationEvent) : ℚ :=
  match evs.getLast? with
  | some ev => ev.time
  | none => 0

/-- The first resolution pass over a batch (the first range-for of
Halite.cpp:638-659), folded from a starting accumulator. -/
def loop1_run (C : Consts) (dist : Location → Location → ℚ) (fuel : ℕ)
    (evs : List SimulationEvent) (acc : BatchAcc) : BatchAcc :=
  evs.foldl (fun a ev => batch_step1 C dist fuel ev a) acc

/-- The second resolution pass over a batch (the second range-for of
Halite.cpp:678-683), folded from a starting state and damage map. -/
def loop2_run (C : Consts) (target_count : EntityId → ℕ)
    (evs : List SimulationEvent) (acc : HState × List ((ℕ × ℕ) × ℚ)) :
    HState × List ((ℕ × ℕ) × ℚ) :=
  evs.foldl (fun a ev => batch_step2 C target_count ev a) acc

/-- Resolution of one simultaneous batch after the liveness filter
(Halite.cpp:609-691): the first pass applies collisions and desertions and
aggregates attack engagements, the second pass deposits the split attack
damage and sets cooldowns, and process_damage applies the accumulated
per-target totals. -/
def batch_core (C : Consts) (dist : Location → Location → ℚ) (fuel : ℕ)
    (evs : List SimulationEvent) (st : HState) : HState :=
  let acc := loop1_run C dist fuel evs
    { st := st, target_count := fun _ => 0, attack_targets := fun _ => [] }
  let res := loop2_run C acc.target_count evs (acc.st, [])
  process_damage C dist fuel res.2 (batch_time evs) res.1

/-- Modelled from the spec: hlt::Map::is_valid (hlt.hpp, not under src/) —
an invalid tag is never valid, a planet reference must index a live planet,
and a ship reference must still be present in its owner's ship map
(cleanup_entities purges destroyed ships from it after every batch). -/
def is_valid (m : GameMap) : EntityId → Bool
  | .ship p i => (alist_get (p, i) m.ships).isSome
  | .planet n =>
    match m.planets[n]? with
    | some pl => decide pl.is_alive
    | none => false
  | .invalid => false

/-- Modelled from the spec: hlt::Map::cleanup_entities (hlt.hpp, not under
src/) purges destroyed mobile units from the live collections; destroyed
nodes stay in the planet vector and are screened by is_alive. -/
def cleanup_entities (m : GameMap) : GameMap :=
  { m with ships := m.ships.filter (fun kv => decide kv.2.is_alive) }

/-- One iteration of the simultaneous-batch loop (Halite.cpp:589-694): drop
every event that references an entity that is no longer valid, skip the
batch entirely if nothing remains, otherwise resolve the batch and purge
destroyed entities. -/
def process_batch (C : Consts) (dist : Location → Location → ℚ) (fuel : ℕ)
    (evs : List SimulationEvent) (st : HState) : HState :=
  let live := evs.filter (fun ev => is_valid st.map ev.id1 && is_valid st.map ev.id2)
  if live = [] then st
  else
    let st1 := batch_core C dist fuel live st
    { st1 with map := cleanup_entities st1.map }

/-- DestroyedEvent records of the frame that concern one entity. -/
def destroyed_for (id : EntityId) (st : HState) : List DestroyRec :=
  st.destroyed.filter (fun r => decide (r.id = id))

/-- Concrete constant table used by the concrete scenarios below; the values
are the documented Halite II defaults (weapon damage 64, weapon cooldown 1,
explosion radius 10, maximum unit health 255). -/
def testConsts : Consts :=
  { WEAPON_DAMAGE := 64, WEAPON_COOLDOWN := 1,
    EXPLOSION_RADIUS := 10, MAX_SHIP_HEALTH := 255 }

/-- Trivial distance function for scenarios in which no explosion geometry is
exercised (maps without planets). -/
def distZero : Location → Location → ℚ := fun _ _ => 0

/-- Ship with the given health, docking status and weapon cooldown, at the
origin and at rest. -/
def mkShip (h : ℕ) (ds : DockingStatus) (cd : ℕ) : Ship :=
  { location := ⟨0, 0⟩, velocity := ⟨0, 0⟩, radius := 1/2, health := h,
    docking_status := ds, docked_planet := 0, weapon_cooldown := cd }

/-- Scenario for claim C1: two undocked enemy ships with healths 100 and 50
about to resolve a Collision event. -/
def collideState : HState :=
  { map := { ships := [((0, 0), mkShip 100 DockingStatus.Undocked 0),
                       ((1, 0), mkShip 50 DockingStatus.Undocked 0)],
             planets := [] },
    destroyed := [], damage_dealt := fun _ => 0 }

/-- Scenario for claims C5 and C10: one eligible attacker (player 0) engaging
two docked enemy ships (player 1) in the same simultaneous batch. -/
def attackState : HState :=
  { map := { ships := [((0, 0), mkShip 255 DockingStatus.Undocked 0),
                       ((1, 0), mkShip 255 DockingStatus.Docked 0),
                       ((1, 1), mkShip 255 DockingStatus.Docked 0)],
             planets := [] },
    destroyed := [], damage_dealt := fun _ => 0 }

/-- The two Attack events of the batch of the attackState scenario. -/
def attackEvs : List SimulationEvent :=
  [⟨SimulationEventType.Attack, EntityId.ship 0 0, EntityId.ship 1 0, 0⟩,
   ⟨SimulationEventType.Attack, EntityId.ship 0 0, EntityId.ship 1 1, 0⟩]

/-- The planet of the claim C2 scenario: radius 5, alive. -/
def c2Planet : Planet :=
  { location := ⟨0, 0⟩, radius := 5, health := 100, owned := false,
    owner := 0, docked_ships := [], docking_spots := 2, frozen := false }

/-- The frozen planet of the claim C8 scenario. -/
def frozenPlanet : Planet :=
  { location := ⟨10, 10⟩, radius := 5, health := 200, owned := false,
    owner := 0, docked_ships := [], docking_spots := 3, frozen := true }

/-- The Attack events of one attacker (player p, index i) against a list of
targets, one event per target, all at the same rounded time. -/
def attack_evs (p i : ℕ) (t : ℚ) (l : List (ℕ × ℕ)) : List SimulationEvent :=
  l.map (fun k => SimulationEvent.mk SimulationEventType.Attack
    (EntityId.ship p i) (EntityId.ship k.1 k.2) t)

/-- Scenario for claim C9: a destroyed-but-not-yet-purged ship (health 0)
sharing the map with a live ship. -/
def deadState : HState :=
  { map := { ships := [((0, 0), mkShip 0 DockingStatus.Undocked 0),
                       ((1, 0), mkShip 10 DockingStatus.Undocked 0)],
             planets := [] },
    destroyed := [], damage_dealt := fun _ => 0 }

/-- Loop-1 accumulator of the attackState batch (used to stage the
evaluation of batch_core in the claim C5 and C10 scenarios). -/
def attackAcc1 : BatchAcc :=
  attackEvs.foldl (fun a ev => batch_step1 testConsts distZero 8 ev a)
    ⟨attackState, fun _ => 0, fun _ => []⟩

/-- State and damage map after loop 2 of the attackState batch. -/
def attackL2 : HState × List ((ℕ × ℕ) × ℚ) :=
  attackEvs.foldl (fun a ev => batch_step2 testConsts attackAcc1.target_count ev a)
    (attackAcc1.st, [])

/-- Mapping with a function that a projection cannot see is invisible to
that projection. -/
theorem option_map_congr_comp {α β : Type} (f : α → α) (g : α → β)
    (hf : ∀ a, g (f a) = g a) (o : Option α) : o.map (g ∘ f) = o.map g := by
  cases o <;> simp [hf]

/-- Reading an untouched key of the ship collection sees no change. -/
theorem alist_get_modify_ne {k k' : ℕ × ℕ} (f : Ship → Ship)
    (l : List ((ℕ × ℕ) × Ship)) (h : k' ≠ k) :
    alist_get k' (alist_modify k f l) = alist_get k' l := by
  induction l with
  | nil => rfl
  | cons kv rest ih =>
    by_cases hk : kv.1 = k
    · simp [alist_modify, alist_get, hk, Ne.symm h] at ih ⊢
      simpa [alist_modify] using ih
    · simp only [alist_modify, List.map_cons, if_neg hk, alist_get]
      by_cases hk' : kv.1 = k'
      · simp [hk']
      · simpa [hk'] using ih

/-- Reading the modified key of the ship collection sees the update. -/
theorem alist_get_modify_self {k : ℕ × ℕ} (f : Ship → Ship)
    (l : List ((ℕ × ℕ) × Ship)) :
    alist_get k (alist_modify k f l) = (alist_get k l).map f := by
  induction l with
  | nil => rfl
  | cons kv rest ih =>
    by_cases hk : kv.1 = k
    · simp [alist_modify, alist_get, hk]
    · simp only [alist_modify, List.map_cons, if_neg hk, alist_get]
      simpa [hk] using ih

/-- Reading an untouched index of the planet vector sees no change. -/
theorem getElem_list_modify_ne {α : Type} (f : α → α) {m n : ℕ} (h : m ≠ n) :
    ∀ l : List α, (list_modify f n l)[m]? = l[m]? := by
  intro l
  induction l generalizing m n with
  | nil => cases n <;> rfl
  | cons a rest ih =>
    cases n with
    | zero =>
      cases m with
      | zero => exact absurd rfl h
      | succ m0 => rfl
    | succ n0 =>
      cases m with
      | zero => simp [list_modify]
      | succ m0 =>
        simpa [list_modify] using ih (by omega)

/-- Reading the modified index of the planet vector sees the update. -/
theorem getElem_list_modify_self {α : Type} (f : α → α) {n : ℕ} :
    ∀ l : List α, (list_modify f n l)[n]? = (l[n]?).map f := by
  intro l
  induction l generalizing n with
  | nil => cases n <;> rfl
  | cons a rest ih =>
    cases n with
    | zero => simp [list_modify]
    | succ n0 => simpa [list_modify] using ih

/-- Updating a ship with a health-preserving function preserves every
entity's observed health. -/
theorem health_of_modify_ship (m : GameMap) (p i : ℕ) (f : Ship → Ship)
    (hf : ∀ s, (f s).health = s.health) (id : EntityId) :
    health_of (modify_ship m p i f) id = health_of m id := by
  cases id with
  | ship q j =>
    by_cases hk : (q, j) = (p, i)
    · injection hk with hq hj
      subst hq
      subst hj
      simp [health_of, modify_ship, alist_get_modify_self, Option.map_map,
        option_map_congr_comp f Ship.health hf]
    · simp [health_of, modify_ship, alist_get_modify_ne f _ hk]
  | planet n => rfl
  | invalid => rfl

/-- Updating a planet with a health-preserving function preserves every
entity's observed health. -/
theorem health_of_modify_planet (m : GameMap) (n : ℕ) (f : Planet → Planet)
    (hf : ∀ pl, (f pl).health = pl.health) (id : EntityId) :
    health_of (modify_planet m n f) id = health_of m id := by
  cases id with
  | ship q j => rfl
  | planet n0 =>
    by_cases hk : n0 = n
    · subst hk
      simp [health_of, modify_planet, getElem_list_modify_self, Option.map_map,
        option_map_congr_comp f Planet.health hf]
    · simp [health_of, modify_planet, getElem_list_modify_ne f hk]
  | invalid => rfl

/-- Overwriting one entity's health does not change another entity's health. -/
theorem health_of_set_health_ne (m : GameMap) (id id2 : EntityId) (h : ℕ)
    (hne : id ≠ id2) :
    health_of (set_health m id2 h) id = health_of m id := by
  cases id2 with
  | ship p i =>
    cases id with
    | ship q j =>
      have : (q, j) ≠ (p, i) := by
        intro hc
        exact hne (by cases hc; rfl)
      simp [set_health, health_of, modify_ship, alist_get_modify_ne _ _ this]
    | planet n => rfl
    | invalid => rfl
  | planet n =>
    cases id with
    | ship q j => rfl
    | planet n0 =>
      have : n0 ≠ n := by
        intro hc
        exact hne (by cases hc; rfl)
      simp [set_health, health_of, modify_planet, getElem_list_modify_ne _ this]
    | invalid => rfl
  | invalid => cases id <;> rfl

/-- Destroying a live ship leaves every other key of the ship collection
untouched (the detach-from-node step edits only the planet vector and the
destroyed ship itself). -/
theorem kill_ship_get_other (C : Consts) (dist : Location → Location → ℚ)
    (fuel : ℕ) (p i : ℕ) (t : ℚ) (st : HState) (q j : ℕ)
    (hne : (q, j) ≠ (p, i)) :
    alist_get (q, j)
        (kill_entity C dist (fuel + 1) (EntityId.ship p i) t st).map.ships =
      alist_get (q, j) st.map.ships := by
  simp only [kill_entity]
  cases halist : alist_get (p, i) st.map.ships with
  | none => rfl
  | some sh =>
    by_cases ha : sh.is_alive
    · simp only [if_pos ha]
      by_cases hd : sh.docking_status ≠ DockingStatus.Undocked
      · simp [if_pos hd, raw_kill, set_health, modify_ship, modify_planet,
          alist_get_modify_ne _ _ hne]
      · simp [if_neg hd, raw_kill, set_health, modify_ship,
          alist_get_modify_ne _ _ hne]
    · simp [if_neg ha]

/-- Destroying a live ship zeroes that ship's observed health. -/
theorem kill_ship_self_health (C : Consts) (dist : Location → Location → ℚ)
    (fuel : ℕ) (p i : ℕ) (t : ℚ) (st : HState) (sh : Ship)
    (h : alist_get (p, i) st.map.ships = some sh) (ha : sh.is_alive) :
    health_of (kill_entity C dist (fuel + 1) (EntityId.ship p i) t st).map
      (EntityId.ship p i) = some 0 := by
  simp only [kill_entity, h, if_pos ha]
  by_cases hd : sh.docking_status ≠ DockingStatus.Undocked
  · simp [if_pos hd, raw_kill, set_health, modify_ship, health_of,
      alist_get_modify_self, modify_planet, h]
  · simp [if_neg hd, raw_kill, set_health, modify_ship, health_of,
      alist_get_modify_self, h]

/-- C1, counterexample. The claim says a unit-vs-unit collision applies the
other unit's current health to each side, so the ship with health 100
colliding with a ship of health 50 would survive with health 50. In the code
compute_damage returns the pair (self health, other health) and process_events
applies the first component back to the first ship, so each ship receives its
own health as damage: the healthier ship ends at health 0, not 50. -/
theorem c1_collision_counterexample :
    health_of (resolve_collision testConsts distZero 5 (EntityId.ship 0 0)
      (EntityId.ship 1 0) 0 collideState).map (EntityId.ship 0 0) = some 0 ∧
    ¬ health_of (resolve_collision testConsts distZero 5 (EntityId.ship 0 0)
      (EntityId.ship 1 0) 0 collideState).map (EntityId.ship 0 0) = some 50 := by
  norm_num [resolve_collision, compute_damage, collideState, mkShip, get_ship_id,
    alist_get, damage_entity, kill_entity, health_of, raw_kill, set_health,
    modify_ship, alist_modify, testConsts]

/-- C1, amended claim. For every Collision event between two live mobile
units, the resolution applies to each unit damage equal to its OWN current
health (the pair returned by compute_damage is (self.health, other.health)
and the first component is applied back to the first unit), so both units
always end the collision destroyed, whatever h1 and h2 are. -/
theorem c1_both_ships_destroyed (C : Consts) (dist : Location → Location → ℚ)
    (fuel : ℕ) (hf : 2 ≤ fuel) (t : ℚ) (st : HState)
    (p1 i1 p2 i2 : ℕ) (sh1 sh2 : Ship)
    (h1 : alist_get (p1, i1) st.map.ships = some sh1)
    (h2 : alist_get (p2, i2) st.map.ships = some sh2)
    (ha1 : sh1.is_alive) (ha2 : sh2.is_alive)
    (hne : (p1, i1) ≠ (p2, i2)) :
    health_of (resolve_collision C dist fuel (EntityId.ship p1 i1)
      (EntityId.ship p2 i2) t st).map (EntityId.ship p1 i1) = some 0 ∧
    health_of (resolve_collision C dist fuel (EntityId.ship p1 i1)
      (EntityId.ship p2 i2) t st).map (EntityId.ship p2 i2) = some 0 := by
  obtain ⟨f0, rfl⟩ : ∃ f0, fuel = f0 + 2 := ⟨fuel - 2, by omega⟩
  have hcd : compute_damage st.map (EntityId.ship p1 i1) (EntityId.ship p2 i2) =
      some (sh1.health, sh2.health) := by
    simp [compute_damage, h1, h2]
  have hstep1 : damage_entity C dist (f0 + 2) (EntityId.ship p1 i1) sh1.health t st =
      kill_entity C dist (f0 + 1) (EntityId.ship p1 i1) t st := by
    simp [damage_entity, health_of, h1]
  set st1 := kill_entity C dist (f0 + 1) (EntityId.ship p1 i1) t st with hst1
  have hget2 : alist_get (p2, i2) st1.map.ships = some sh2 := by
    rw [hst1, kill_ship_get_other C dist f0 p1 i1 t st p2 i2 (Ne.symm hne), h2]
  have hh1 : health_of st1.map (EntityId.ship p1 i1) = some 0 :=
    kill_ship_self_health C dist f0 p1 i1 t st sh1 h1 ha1
  have hstep2 : damage_entity C dist (f0 + 2) (EntityId.ship p2 i2) sh2.health t st1 =
      kill_entity C dist (f0 + 1) (EntityId.ship p2 i2) t st1 := by
    simp [damage_entity, health_of, hget2]
  have hfinal1 : health_of (kill_entity C dist (f0 + 1) (EntityId.ship p2 i2) t
      st1).map (EntityId.ship p1 i1) = some 0 := by
    have := kill_ship_get_other C dist f0 p2 i2 t st1 p1 i1 hne
    simp only [health_of, this]
    simpa [health_of] using hh1
  have hfinal2 : health_of (kill_entity C dist (f0 + 1) (EntityId.ship p2 i2) t
      st1).map (EntityId.ship p2 i2) = some 0 :=
    kill_ship_self_health C dist f0 p2 i2 t st1 sh2 hget2 ha2
  simp only [resolve_collision, hcd, hstep1, hstep2]
  exact ⟨hfinal1, hfinal2⟩

/-- C1, witness: the amended claim applied to the concrete scenario of two
live undocked ships with healths 100 and 50. -/
theorem c1_both_ships_destroyed_witness :
    health_of (resolve_collision testConsts distZero 5 (EntityId.ship 0 0)
      (EntityId.ship 1 0) 0 collideState).map (EntityId.ship 0 0) = some 0 ∧
    health_of (resolve_collision testConsts distZero 5 (EntityId.ship 0 0)
      (EntityId.ship 1 0) 0 collideState).map (EntityId.ship 1 0) = some 0 :=
  c1_both_ships_destroyed testConsts distZero 5 (by decide) 0 collideState
    0 0 1 0 (mkShip 100 DockingStatus.Undocked 0) (mkShip 50 DockingStatus.Undocked 0)
    rfl rfl (by decide) (by decide) (by decide)

/-- C2: evaluation at the failing input. At distance 0 from the node's
surface (distance 5 from the center of a radius-5 node) the explosion damage
is MAX_SHIP_HEALTH = 255, not the 2 × 255 = 510 promised by the claim and by
the comment above the formula; at the explosion radius it is 127 (≈ half the
maximum), and one step beyond the radius it is 0. -/
theorem c2_explosion_damage_at_surface :
    planet_explosion_damage testConsts c2Planet 5 = 255 ∧
    planet_explosion_damage testConsts c2Planet 5 ≠ 2 * 255 ∧
    planet_explosion_damage testConsts c2Planet 15 = 127 ∧
    planet_explosion_damage testConsts c2Planet 16 = 0 := by
  norm_num [planet_explosion_damage, testConsts, c2Planet]
  decide

/-- C3: evaluation at the failing input. A ship at x = 5 with velocity
x-component −10 leaves the 100 × 100 world, but the detector only solves the
boundary-crossing times for positive velocity components, so the computed
time stays at the 1000000.0 sentinel: it is not the claimed 0.5 and violates
the source's own assertion time ≤ 1. -/
theorem c3_desertion_negative_velocity :
    desertion_check 100 100 ⟨5, 5⟩ ⟨-10, 0⟩ = some 1000000 ∧
    ¬ desertion_time 100 100 ⟨5, 5⟩ ⟨-10, 0⟩ ≤ 1 ∧
    desertion_check 100 100 ⟨5, 5⟩ ⟨-10, 0⟩ ≠ some (1/2) := by
  norm_num [desertion_check, desertion_time, within_bounds, Location.move_by]

/-- C4, counterexample. For two already-separated bodies moving further apart
(positions 10 and 0 on the x-axis, relative velocity +1, combined radius 1)
the quadratic has the two negative roots −9 and −11 (discriminant 4, square
root 2), and the solver still reports success with the negative time −9: the
success flag does not imply a non-negative time. -/
theorem c4_negative_time_counterexample :
    ct_disc 1 ⟨10, 0⟩ ⟨0, 0⟩ ⟨1, 0⟩ ⟨0, 0⟩ = 4 ∧
    collision_time 1 ⟨10, 0⟩ ⟨0, 0⟩ ⟨1, 0⟩ ⟨0, 0⟩ 2 = (true, -9) ∧
    (-9 : ℚ) < 0 := by
  norm_num [collision_time, ct_disc, ct_a, ct_b, ct_c, max_def, min_def]

/-- C4, amended claim. In the zero-relative-velocity already-overlapping
case the solver returns success at time 0; and whenever the quadratic is
non-degenerate with two distinct real roots of which at least one is
non-negative, the solver reports success and returns the smallest
non-negative root (sqrt_disc stands for std::sqrt of the discriminant, so it
is assumed non-negative with square equal to the discriminant). When both
roots are negative the solver still reports success with a negative time
(see the counterexample), so this is the most that holds. -/
theorem c4_amended_root_selection (r : ℚ) (loc1 loc2 : Location) (vel1 vel2 : Velocity)
    (s : ℚ) (hs : 0 ≤ s) (hss : s ^ 2 = ct_disc r loc1 loc2 vel1 vel2) :
    (ct_a vel1 vel2 = 0 ∧ ct_b loc1 loc2 vel1 vel2 = 0 ∧ ct_c r loc1 loc2 ≤ 0 →
      collision_time r loc1 loc2 vel1 vel2 s = (true, 0)) ∧
    (ct_a vel1 vel2 ≠ 0 → 0 < ct_disc r loc1 loc2 vel1 vel2 →
      (∃ u, 0 ≤ u ∧ ct_a vel1 vel2 * u ^ 2 + ct_b loc1 loc2 vel1 vel2 * u +
        ct_c r loc1 loc2 = 0) →
      (collision_time r loc1 loc2 vel1 vel2 s).1 = true ∧
      0 ≤ (collision_time r loc1 loc2 vel1 vel2 s).2 ∧
      ct_a vel1 vel2 * (collision_time r loc1 loc2 vel1 vel2 s).2 ^ 2 +
        ct_b loc1 loc2 vel1 vel2 * (collision_time r loc1 loc2 vel1 vel2 s).2 +
        ct_c r loc1 loc2 = 0 ∧
      (∀ u, 0 ≤ u → ct_a vel1 vel2 * u ^ 2 + ct_b loc1 loc2 vel1 vel2 * u +
        ct_c r loc1 loc2 = 0 →
        (collision_time r loc1 loc2 vel1 vel2 s).2 ≤ u)) := by
  constructor
  · rintro ⟨ha, hb, hc⟩
    simp [collision_time, ha, hb, hc]
  · intro ha hd hex
    have ha0 : 0 ≤ ct_a vel1 vel2 := by
      rw [ct_a]
      positivity
    have hapos : 0 < ct_a vel1 vel2 := lt_of_le_of_ne ha0 (Ne.symm ha)
    have h2a : (0:ℚ) < 2 * ct_a vel1 vel2 := by linarith
    have hss' : s ^ 2 = ct_b loc1 loc2 vel1 vel2 ^ 2 -
        4 * ct_a vel1 vel2 * ct_c r loc1 loc2 := hss
    have hroot_iff : ∀ u : ℚ, ct_a vel1 vel2 * u ^ 2 +
        ct_b loc1 loc2 vel1 vel2 * u + ct_c r loc1 loc2 = 0 ↔
        (u = (-ct_b loc1 loc2 vel1 vel2 + s) / (2 * ct_a vel1 vel2) ∨
         u = (-ct_b loc1 loc2 vel1 vel2 - s) / (2 * ct_a vel1 vel2)) := by
      intro u
      constructor
      · intro hu
        have hfact : (2 * ct_a vel1 vel2 * u + ct_b loc1 loc2 vel1 vel2 - s) *
            (2 * ct_a vel1 vel2 * u + ct_b loc1 loc2 vel1 vel2 + s) = 0 := by
          linear_combination 4 * ct_a vel1 vel2 * hu - hss'
        rcases mul_eq_zero.mp hfact with h0 | h0
        · left
          field_simp
          linarith
        · right
          field_simp
          linarith
      · rintro (rfl | rfl) <;>
          (field_simp; linear_combination 2 * ct_a vel1 vel2 ^ 2 * hss')
    have ht21 : -ct_b loc1 loc2 vel1 vel2 - s ≤ -ct_b loc1 loc2 vel1 vel2 + s := by
      linarith
    have hval : collision_time r loc1 loc2 vel1 vel2 s =
        if -ct_b loc1 loc2 vel1 vel2 + s ≥ 0 ∧ -ct_b loc1 loc2 vel1 vel2 - s ≥ 0
        then (true, min (-ct_b loc1 loc2 vel1 vel2 + s)
          (-ct_b loc1 loc2 vel1 vel2 - s) / (2 * ct_a vel1 vel2))
        else (true, max (-ct_b loc1 loc2 vel1 vel2 + s)
          (-ct_b loc1 loc2 vel1 vel2 - s) / (2 * ct_a vel1 vel2)) := by
      simp only [collision_time]
      rw [if_neg ha, if_neg (ne_of_gt hd), if_pos hd]
    by_cases hboth : -ct_b loc1 loc2 vel1 vel2 + s ≥ 0 ∧
        -ct_b loc1 loc2 vel1 vel2 - s ≥ 0
    · rw [hval, if_pos hboth, min_eq_right ht21]
      refine ⟨rfl, ?_, ?_, ?_⟩
      · exact div_nonneg hboth.2 (le_of_lt h2a)
      · exact (hroot_iff _).mpr (Or.inr rfl)
      · intro u hu hru
        rcases (hroot_iff u).mp hru with rfl | rfl
        · exact (div_le_div_iff_of_pos_right h2a).mpr ht21
        · exact le_refl _
    · rw [hval, if_neg hboth, max_eq_left ht21]
      have ht1 : 0 ≤ -ct_b loc1 loc2 vel1 vel2 + s := by
        obtain ⟨u, hu0, hur⟩ := hex
        rcases (hroot_iff u).mp hur with rfl | rfl
        · have := (le_div_iff₀ h2a).mp hu0
          linarith
        · exfalso
          have ht2 : 0 ≤ -ct_b loc1 loc2 vel1 vel2 - s := by
            have := (le_div_iff₀ h2a).mp hu0
            linarith
          exact hboth ⟨by linarith, ht2⟩
      refine ⟨rfl, ?_, ?_, ?_⟩
      · exact div_nonneg ht1 (le_of_lt h2a)
      · exact (hroot_iff _).mpr (Or.inl rfl)
      · intro u hu hru
        rcases (hroot_iff u).mp hru with rfl | rfl
        · exact le_refl _
        · exfalso
          have ht2 : 0 ≤ -ct_b loc1 loc2 vel1 vel2 - s := by
            have := (le_div_iff₀ h2a).mp hu
            linarith
          exact hboth ⟨by linarith, ht2⟩


/-- C4, witness: ships at x-distance 3 closing at relative speed 1 with
combined radius 1 (discriminant 4, roots 2 and 4): the solver succeeds with
a non-negative time. -/
theorem c4_amended_root_selection_witness :
    (collision_time 1 ⟨0, 0⟩ ⟨3, 0⟩ ⟨1, 0⟩ ⟨0, 0⟩ 2).1 = true ∧
    0 ≤ (collision_time 1 ⟨0, 0⟩ ⟨3, 0⟩ ⟨1, 0⟩ ⟨0, 0⟩ 2).2 := by
  have h := (c4_amended_root_selection 1 ⟨0, 0⟩ ⟨3, 0⟩ ⟨1, 0⟩ ⟨0, 0⟩ 2
    (by norm_num) (by norm_num [ct_disc, ct_a, ct_b, ct_c])).2
    (by norm_num [ct_a]) (by norm_num [ct_disc, ct_a, ct_b, ct_c])
    ⟨2, by norm_num, by norm_num [ct_a, ct_b, ct_c]⟩
  exact ⟨h.1, h.2.1⟩

/-- C5, counterexample. One eligible attacker engages two docked targets in
one batch with WEAPON_DAMAGE = 64: the claim promises 64 / 2 = 32 damage to
each target, but depositing the first engagement sets the attacker's weapon
cooldown, so the second engagement is skipped and the second target's health
stays at 255 instead of dropping to 223 (the first target does drop to 223). -/
theorem c5_second_target_gets_nothing :
    health_of (batch_core testConsts distZero 8 attackEvs attackState).map
      (EntityId.ship 1 0) = some 223 ∧
    health_of (batch_core testConsts distZero 8 attackEvs attackState).map
      (EntityId.ship 1 1) = some 255 ∧
    ¬ health_of (batch_core testConsts distZero 8 attackEvs attackState).map
      (EntityId.ship 1 1) = some 223 := by
  have habc : batch_core testConsts distZero 8 attackEvs attackState =
      process_damage testConsts distZero 8 attackL2.2 0 attackL2.1 := rfl
  have htc : attackAcc1.target_count (EntityId.ship 0 0) = 2 := rfl
  have hv : (⌊dm_get (1, 0) [] + (testConsts.WEAPON_DAMAGE : ℚ) /
      (attackAcc1.target_count (EntityId.ship 0 0) : ℚ)⌋).toNat = 32 := by
    rw [htc]
    norm_num [dm_get, testConsts]
    decide
  have hdm : attackL2.2 = [((1, 0), dm_get (1, 0) [] +
      (testConsts.WEAPON_DAMAGE : ℚ) /
      (attackAcc1.target_count (EntityId.ship 0 0) : ℚ))] := rfl
  have hpd : process_damage testConsts distZero 8 attackL2.2 0 attackL2.1 =
      damage_entity testConsts distZero 8 (EntityId.ship 1 0) 32 0 attackL2.1 := by
    rw [hdm]
    simp only [process_damage, List.foldl_cons, List.foldl_nil]
    rw [hv]
  rw [habc, hpd]
  decide

/-- C6: evaluation at the failing input. In a 128-wide world with cell size
64 the grid has 2 columns (indices 0 and 1); a query at x = 127 with radius 1
satisfies the right-edge test (127 + 1 ≥ 128) and its guard cell_x < width
(1 < 2), so the code reads cell column 2 — one past the last column, where
the source's cells.at(2) throws std::out_of_range. -/
theorem c6_reads_past_last_column :
    cm_width 128 64 = 2 ∧
    (2, 0) ∈ collision_map_test_cells 2 2 64 ⟨127, 32⟩ 1 ∧
    ¬ (2 : ℤ) < cm_width 128 64 := by
  norm_num [cm_width, collision_map_test_cells]

/-- C7, counterexample. With one queued move per turn the phase trace is
retrieve_moves, docking, moves, events, movement, production, drag,
cooldowns: the docking/undocking countdown phase runs before command
application and before the cooldown decrement, contradicting the claimed
order in which docking is processed last, after cooldowns. -/
theorem c7_docking_runs_first_counterexample :
    process_next_frame_phases 1 =
      [Phase.retrieveMoves, Phase.docking, Phase.moves 0, Phase.events 0,
       Phase.movement 0, Phase.production, Phase.drag, Phase.cooldowns] ∧
    List.indexOf Phase.docking (process_next_frame_phases 1) <
      List.indexOf (Phase.moves 0) (process_next_frame_phases 1) ∧
    List.indexOf Phase.docking (process_next_frame_phases 1) <
      List.indexOf Phase.cooldowns (process_next_frame_phases 1) := by
  constructor
  · rfl
  · decide

/-- The sub-step block of the phase trace contributes three phases per
queued-move index. -/
theorem length_substep_phases (m : ℕ) :
    ((List.range m).flatMap
      (fun n => [Phase.moves n, Phase.events n, Phase.movement n])).length =
      3 * m := by
  induction m with
  | zero => rfl
  | succ k ih =>
    rw [List.range_succ, List.flatMap_append, List.length_append, ih]
    simp
    omega

/-- C7, amended claim. In every turn the phase trace starts with
retrieve_moves and then the docking/undocking countdown phase (before any
command application), docking never recurs later in the turn, the turn ends
with production, drag and cooldowns in that order, and command application
happens strictly after the docking phase. -/
theorem c7_amended_phase_order (m : ℕ) (hm : 0 < m) :
    (process_next_frame_phases m).take 2 =
      [Phase.retrieveMoves, Phase.docking] ∧
    Phase.docking ∉ (process_next_frame_phases m).drop 2 ∧
    (process_next_frame_phases m).drop (2 + 3 * m) =
      [Phase.production, Phase.drag, Phase.cooldowns] ∧
    Phase.moves 0 ∈ (process_next_frame_phases m).drop 2 := by
  have hsplit : process_next_frame_phases m =
      ([Phase.retrieveMoves, Phase.docking] ++ (List.range m).flatMap
        (fun n => [Phase.moves n, Phase.events n, Phase.movement n])) ++
      [Phase.production, Phase.drag, Phase.cooldowns] := by
    simp [process_next_frame_phases]
  refine ⟨rfl, ?_, ?_, ?_⟩
  · simp [process_next_frame_phases, List.mem_flatMap]
  · rw [hsplit]
    have hlen : ([Phase.retrieveMoves, Phase.docking] ++ (List.range m).flatMap
        (fun n => [Phase.moves n, Phase.events n, Phase.movement n])).length =
        2 + 3 * m := by
      simp only [List.length_append, length_substep_phases]
      rfl
    rw [← hlen, List.drop_left]
  · simp only [process_next_frame_phases, List.cons_append, List.nil_append,
      List.drop_succ_cons, List.drop_zero, List.mem_append, List.mem_flatMap]
    exact Or.inl ⟨0, by simpa using hm, by simp⟩

/-- C7, witness: the amended phase order at one queued move per turn. -/
theorem c7_amended_phase_order_witness :
    (process_next_frame_phases 1).take 2 =
      [Phase.retrieveMoves, Phase.docking] ∧
    Phase.docking ∉ (process_next_frame_phases 1).drop 2 ∧
    (process_next_frame_phases 1).drop (2 + 3 * 1) =
      [Phase.production, Phase.drag, Phase.cooldowns] ∧
    Phase.moves 0 ∈ (process_next_frame_phases 1).drop 2 :=
  c7_amended_phase_order 1 (by decide)

/-- C8: evaluation at the failing input. The unfreeze loop of
process_docking iterates the planet vector by value, so a planet frozen by
the simultaneous-dock tie rule is still frozen after the loop runs at the
start of the next turn, and the dock admission test of process_moves then
rejects a dock request solely because of the stale frozen flag. -/
theorem c8_frozen_flag_survives_unfreeze :
    unfreeze_planets [frozenPlanet] = [frozenPlanet] ∧
    (unfreeze_planets [frozenPlanet]).head?.map Planet.frozen = some true ∧
    frozenPlanet.is_alive ∧
    dock_admitted frozenPlanet true = false := by
  refine ⟨rfl, rfl, by decide, rfl⟩

/-- C10, counterexample. In the attackState scenario the attacker engages
k = 2 targets: its fleet's damage_dealt counter increases by 2 × 64 = 128,
while the damage actually applied in the batch totals 32 (the first target
drops from 255 to 223, the second is untouched) — not the 64 the claim says
the batch applies in total. -/
theorem c10_counter_vs_applied_counterexample :
    (batch_core testConsts distZero 8 attackEvs attackState).damage_dealt 0 =
      2 * 64 ∧
    health_of (batch_core testConsts distZero 8 attackEvs attackState).map
      (EntityId.ship 1 0) = some 223 ∧
    health_of (batch_core testConsts distZero 8 attackEvs attackState).map
      (EntityId.ship 1 1) = some 255 ∧
    (255 - 223) + (255 - 255) ≠ 64 := by
  have habc : batch_core testConsts distZero 8 attackEvs attackState =
      process_damage testConsts distZero 8 attackL2.2 0 attackL2.1 := rfl
  have htc : attackAcc1.target_count (EntityId.ship 0 0) = 2 := rfl
  have hv : (⌊dm_get (1, 0) [] + (testConsts.WEAPON_DAMAGE : ℚ) /
      (attackAcc1.target_count (EntityId.ship 0 0) : ℚ)⌋).toNat = 32 := by
    rw [htc]
    norm_num [dm_get, testConsts]
    decide
  have hdm : attackL2.2 = [((1, 0), dm_get (1, 0) [] +
      (testConsts.WEAPON_DAMAGE : ℚ) /
      (attackAcc1.target_count (EntityId.ship 0 0) : ℚ))] := rfl
  have hpd : process_damage testConsts distZero 8 attackL2.2 0 attackL2.1 =
      damage_entity testConsts distZero 8 (EntityId.ship 1 0) 32 0 attackL2.1 := by
    rw [hdm]
    simp only [process_damage, List.foldl_cons, List.foldl_nil]
    rw [hv]
  rw [habc, hpd]
  decide

/-- The first resolution pass never edits the world map or the destruction
records through an Attack engagement (the cooldown update is deferred). -/
theorem update_targets_st (C : Consts) (src target : EntityId) (t : ℚ)
    (acc : BatchAcc) :
    (update_targets C src target t acc).st.map = acc.st.map ∧
    (update_targets C src target t acc).st.destroyed = acc.st.destroyed := by
  simp only [update_targets]
  cases hg : get_ship_id acc.st.map src with
  | none => exact ⟨rfl, rfl⟩
  | some sh =>
    dsimp only
    split_ifs with h
    · exact ⟨rfl, rfl⟩
    · exact ⟨rfl, rfl⟩

/-- An ineligible attacker's engagement is a no-op in the first pass. -/
theorem update_targets_skip (C : Consts) (src target : EntityId) (t : ℚ)
    (acc : BatchAcc) (sh : Ship)
    (hg : get_ship_id acc.st.map src = some sh)
    (hinel : ¬ sh.is_alive ∨ sh.weapon_cooldown > 0 ∨
      sh.docking_status ≠ DockingStatus.Undocked) :
    update_targets C src target t acc = acc := by
  simp only [update_targets, hg]
  rw [if_pos hinel]

/-- An ineligible attacker's engagement is a no-op in the second pass. -/
theorem update_damage_skip (C : Consts) (tc : EntityId → ℕ)
    (src target : EntityId) (acc : HState × List ((ℕ × ℕ) × ℚ)) (sh : Ship)
    (hg : get_ship_id acc.1.map src = some sh)
    (hinel : ¬ sh.is_alive ∨ sh.weapon_cooldown > 0 ∨
      sh.docking_status ≠ DockingStatus.Undocked) :
    update_damage C tc src target acc = acc := by
  simp only [update_damage, hg]
  rw [if_pos hinel]

/-- Running the first pass over the engagements of a single eligible
attacker: the world map and destruction records are untouched, the
attacker's engagement count grows by the number of engagements, and the
attacker's fleet counter is credited the full WEAPON_DAMAGE per engagement.
The targets only need to be present and ineligible to attack back. -/
theorem loop1_attack_fold (C : Consts) (dist : Location → Location → ℚ)
    (fuel : ℕ) (t : ℚ) (p i : ℕ) (atk : Ship)
    (ha : atk.is_alive) (hcd : atk.weapon_cooldown = 0)
    (hds : atk.docking_status = DockingStatus.Undocked) :
    ∀ (l : List (ℕ × ℕ)) (acc : BatchAcc),
    alist_get (p, i) acc.st.map.ships = some atk →
    (∀ k ∈ l, k ≠ (p, i) ∧ ∃ sh, alist_get k acc.st.map.ships = some sh ∧
      sh.docking_status ≠ DockingStatus.Undocked) →
    (loop1_run C dist fuel (attack_evs p i t l) acc).st.map = acc.st.map ∧
    (loop1_run C dist fuel (attack_evs p i t l) acc).st.destroyed =
      acc.st.destroyed ∧
    (loop1_run C dist fuel (attack_evs p i t l) acc).target_count
      (EntityId.ship p i) =
      acc.target_count (EntityId.ship p i) + l.length ∧
    (loop1_run C dist fuel (attack_evs p i t l) acc).st.damage_dealt p =
      acc.st.damage_dealt p + l.length * C.WEAPON_DAMAGE := by
  intro l
  induction l with
  | nil =>
    intro acc hg hts
    exact ⟨rfl, rfl, by simp [loop1_run, attack_evs], by simp [loop1_run, attack_evs]⟩
  | cons k0 rest ih =>
    intro acc hg hts
    obtain ⟨hk0ne, sh0, hsh0, hsh0d⟩ := hts k0 (List.mem_cons_self k0 rest)
    have hel : ¬ (¬ atk.is_alive ∨ atk.weapon_cooldown > 0 ∨
        atk.docking_status ≠ DockingStatus.Undocked) := by
      push_neg
      exact ⟨ha, by omega, by simp [hds]⟩
    -- the inner (eligible) engagement
    have hinner : update_targets C (EntityId.ship p i)
        (EntityId.ship k0.1 k0.2) t acc =
        { st := { acc.st with damage_dealt := fun pl =>
            if pl = (EntityId.ship p i).player
            then acc.st.damage_dealt pl + C.WEAPON_DAMAGE
            else acc.st.damage_dealt pl },
          target_count := fun id => if id = EntityId.ship p i
            then acc.target_count (EntityId.ship p i) + 1
            else acc.target_count id,
          attack_targets := fun id => if id = EntityId.ship p i
            then acc.attack_targets (EntityId.ship p i) ++ [EntityId.ship k0.1 k0.2]
            else acc.attack_targets id } := by
      simp only [update_targets, get_ship_id, hg]
      rw [if_neg hel]
    set acc1 := update_targets C (EntityId.ship p i) (EntityId.ship k0.1 k0.2) t acc
      with hacc1
    have hacc1map : acc1.st.map = acc.st.map := by rw [hinner]
    have houter : update_targets C (EntityId.ship k0.1 k0.2)
        (EntityId.ship p i) t acc1 = acc1 := by
      refine update_targets_skip C _ _ t acc1 sh0 ?_ (Or.inr (Or.inr hsh0d))
      simpa [get_ship_id, hacc1map] using hsh0
    have hstep : loop1_run C dist fuel (attack_evs p i t (k0 :: rest)) acc =
        loop1_run C dist fuel (attack_evs p i t rest) acc1 := by
      simp only [attack_evs, List.map_cons, loop1_run, List.foldl_cons,
        batch_step1]
      rw [houter]
    have hih := ih acc1 (by rw [hacc1map]; exact hg)
      (by
        intro k hk
        obtain ⟨h1, sh, h2, h3⟩ := hts k (List.mem_cons_of_mem _ hk)
        exact ⟨h1, sh, by rw [hacc1map]; exact h2, h3⟩)
    rw [hstep]
    refine ⟨by rw [hih.1, hacc1map], by rw [hih.2.1, hinner], ?_, ?_⟩
    · rw [hih.2.2.1, hinner]
      simp [List.length_cons]
      omega
    · rw [hih.2.2.2, hinner]
      simp [EntityId.player, List.length_cons]
      ring

/-- Once the attacker's cooldown is set, the rest of the second pass over its
engagements (and the docked targets' reverse engagements) changes nothing. -/
theorem loop2_tail_id (C : Consts) (tc : EntityId → ℕ) (t : ℚ) (p i : ℕ) :
    ∀ (l : List (ℕ × ℕ)) (acc : HState × List ((ℕ × ℕ) × ℚ)) (atk2 : Ship),
    alist_get (p, i) acc.1.map.ships = some atk2 →
    atk2.weapon_cooldown > 0 →
    (∀ k ∈ l, k ≠ (p, i) ∧ ∃ sh, alist_get k acc.1.map.ships = some sh ∧
      sh.docking_status ≠ DockingStatus.Undocked) →
    loop2_run C tc (attack_evs p i t l) acc = acc := by
  intro l
  induction l with
  | nil => intro acc atk2 _ _ _; rfl
  | cons k0 rest ih =>
    intro acc atk2 hg hcd hts
    obtain ⟨hk0ne, sh0, hsh0, hsh0d⟩ := hts k0 (List.mem_cons_self k0 rest)
    have h1 : update_damage C tc (EntityId.ship p i)
        (EntityId.ship k0.1 k0.2) acc = acc :=
      update_damage_skip C tc _ _ acc atk2 (by simpa [get_ship_id] using hg)
        (Or.inr (Or.inl hcd))
    have h2 : update_damage C tc (EntityId.ship k0.1 k0.2)
        (EntityId.ship p i) acc = acc :=
      update_damage_skip C tc _ _ acc sh0 (by simpa [get_ship_id] using hsh0)
        (Or.inr (Or.inr hsh0d))
    have hstep : loop2_run C tc (attack_evs p i t (k0 :: rest)) acc =
        loop2_run C tc (attack_evs p i t rest) acc := by
      simp only [attack_evs, List.map_cons, loop2_run, List.foldl_cons,
        batch_step2]
      simp only [eq_self_iff_true, if_true, h1, h2]
    rw [hstep]
    exact ih acc atk2 hg hcd (fun k hk => hts k (List.mem_cons_of_mem _ hk))

/-- One eligible attacker engaging the targets t0 :: ts in one batch: the
engagement count is the number of targets, the fleet counter gains the full
WEAPON_DAMAGE per target, yet only the first target receives the
WEAPON_DAMAGE / k deposit — processing it sets the attacker's cooldown
(positive by hypothesis), which makes every later engagement of the batch
ineligible — and the attacker ends the pass with its cooldown set. -/
theorem attack_batch_run (C : Consts) (dist : Location → Location → ℚ)
    (fuel : ℕ) (t : ℚ) (st : HState) (p i : ℕ) (atk : Ship)
    (hwcd : 0 < C.WEAPON_COOLDOWN)
    (hg : alist_get (p, i) st.map.ships = some atk)
    (ha : atk.is_alive) (hcd : atk.weapon_cooldown = 0)
    (hds : atk.docking_status = DockingStatus.Undocked)
    (t0 : ℕ × ℕ) (ts : List (ℕ × ℕ))
    (hts : ∀ k ∈ t0 :: ts, k ≠ (p, i) ∧ ∃ sh, alist_get k st.map.ships = some sh ∧
      sh.docking_status ≠ DockingStatus.Undocked)
    (ht0 : t0 ∉ ts) :
    (loop1_run C dist fuel (attack_evs p i t (t0 :: ts))
        ⟨st, fun _ => 0, fun _ => []⟩).target_count (EntityId.ship p i) =
      (t0 :: ts).length ∧
    (loop1_run C dist fuel (attack_evs p i t (t0 :: ts))
        ⟨st, fun _ => 0, fun _ => []⟩).st.damage_dealt p =
      st.damage_dealt p + (t0 :: ts).length * C.WEAPON_DAMAGE ∧
    dm_get t0 (loop2_run C (loop1_run C dist fuel (attack_evs p i t (t0 :: ts))
        ⟨st, fun _ => 0, fun _ => []⟩).target_count
        (attack_evs p i t (t0 :: ts))
        ((loop1_run C dist fuel (attack_evs p i t (t0 :: ts))
          ⟨st, fun _ => 0, fun _ => []⟩).st, [])).2 =
      (C.WEAPON_DAMAGE : ℚ) / ((t0 :: ts).length : ℚ) ∧
    (∀ k ∈ ts, dm_get k (loop2_run C (loop1_run C dist fuel
        (attack_evs p i t (t0 :: ts)) ⟨st, fun _ => 0, fun _ => []⟩).target_count
        (attack_evs p i t (t0 :: ts))
        ((loop1_run C dist fuel (attack_evs p i t (t0 :: ts))
          ⟨st, fun _ => 0, fun _ => []⟩).st, [])).2 = 0) ∧
    alist_get (p, i) (loop2_run C (loop1_run C dist fuel
        (attack_evs p i t (t0 :: ts)) ⟨st, fun _ => 0, fun _ => []⟩).target_count
        (attack_evs p i t (t0 :: ts))
        ((loop1_run C dist fuel (attack_evs p i t (t0 :: ts))
          ⟨st, fun _ => 0, fun _ => []⟩).st, [])).1.map.ships =
      some { atk with weapon_cooldown := C.WEAPON_COOLDOWN } := by
  set acc0 : BatchAcc := ⟨st, fun _ => 0, fun _ => []⟩ with hacc0
  have hl1 := loop1_attack_fold C dist fuel t p i atk ha hcd hds (t0 :: ts) acc0
    hg hts
  set acc := loop1_run C dist fuel (attack_evs p i t (t0 :: ts)) acc0 with hacc
  obtain ⟨hmap, hdes, hcount, hdd⟩ := hl1
  have hcount0 : acc.target_count (EntityId.ship p i) = (t0 :: ts).length := by
    simpa using hcount
  have hdd0 : acc.st.damage_dealt p =
      st.damage_dealt p + (t0 :: ts).length * C.WEAPON_DAMAGE := by
    simpa using hdd
  have hel : ¬ (¬ atk.is_alive ∨ atk.weapon_cooldown > 0 ∨
      atk.docking_status ≠ DockingStatus.Undocked) := by
    push_neg
    exact ⟨ha, by omega, by simp [hds]⟩
  have hmapst : acc.st.map = st.map := hmap
  obtain ⟨ht0ne, sh0, hsh0, hsh0d⟩ := hts t0 (List.mem_cons_self t0 ts)
  set stA : HState := { acc.st with
    map := set_cooldown acc.st.map (EntityId.ship p i) C.WEAPON_COOLDOWN }
    with hstA
  set v : ℚ := dm_get ((EntityId.ship t0.1 t0.2).player,
      (EntityId.ship t0.1 t0.2).index) [] +
    (C.WEAPON_DAMAGE : ℚ) / (acc.target_count (EntityId.ship p i) : ℚ) with hv
  have hfirst : update_damage C acc.target_count (EntityId.ship p i)
      (EntityId.ship t0.1 t0.2) (acc.st, []) =
      (stA, [(((EntityId.ship t0.1 t0.2).player,
        (EntityId.ship t0.1 t0.2).index), v)]) := by
    simp only [update_damage, get_ship_id, hmapst, hg]
    rw [if_neg hel, hstA, hmapst]
    rfl
  have hatkA : alist_get (p, i) stA.map.ships =
      some { atk with weapon_cooldown := C.WEAPON_COOLDOWN } := by
    rw [hstA]
    simp only [set_cooldown, modify_ship]
    rw [alist_get_modify_self, hmapst, hg]
    rfl
  have hshipsA : ∀ k, k ≠ (p, i) →
      alist_get k stA.map.ships = alist_get k st.map.ships := by
    intro k hk
    rw [hstA]
    simp only [set_cooldown, modify_ship]
    rw [alist_get_modify_ne _ _ hk, hmapst]
  have hsecond : update_damage C acc.target_count (EntityId.ship t0.1 t0.2)
      (EntityId.ship p i) (stA, [(((EntityId.ship t0.1 t0.2).player,
        (EntityId.ship t0.1 t0.2).index), v)]) =
      (stA, [(((EntityId.ship t0.1 t0.2).player,
        (EntityId.ship t0.1 t0.2).index), v)]) := by
    refine update_damage_skip C _ _ _ _ sh0 ?_ (Or.inr (Or.inr hsh0d))
    simpa [get_ship_id, hshipsA t0 ht0ne] using hsh0
  have hstep0 : loop2_run C acc.target_count (attack_evs p i t (t0 :: ts))
      (acc.st, []) =
      loop2_run C acc.target_count (attack_evs p i t ts)
      (stA, [(((EntityId.ship t0.1 t0.2).player,
        (EntityId.ship t0.1 t0.2).index), v)]) := by
    simp only [attack_evs, List.map_cons, loop2_run, List.foldl_cons,
      batch_step2, eq_self_iff_true, if_true]
    rw [hfirst, hsecond]
  have htail : loop2_run C acc.target_count (attack_evs p i t ts)
      (stA, [(((EntityId.ship t0.1 t0.2).player,
        (EntityId.ship t0.1 t0.2).index), v)]) =
      (stA, [(((EntityId.ship t0.1 t0.2).player,
        (EntityId.ship t0.1 t0.2).index), v)]) := by
    refine loop2_tail_id C acc.target_count t p i ts _
      { atk with weapon_cooldown := C.WEAPON_COOLDOWN } hatkA (by simpa using hwcd) ?_
    intro k hk
    obtain ⟨h1, sh, h2, h3⟩ := hts k (List.mem_cons_of_mem _ hk)
    exact ⟨h1, sh, by rw [hshipsA k h1]; exact h2, h3⟩
  rw [hstep0, htail]
  refine ⟨hcount0, hdd0, ?_, ?_, ?_⟩
  · show dm_get t0 [((t0.1, t0.2), v)] = _
    simp only [dm_get]
    rw [if_true, hv, hcount0]
    simp [dm_get, EntityId.player, EntityId.index]
  · intro k hk
    show dm_get k [((t0.1, t0.2), v)] = 0
    have : t0 ≠ k := by
      intro he
      exact ht0 (he ▸ hk)
    simp only [dm_get]
    rw [if_neg this]
  · exact hatkA

/-- C5, amended claim. An eligible attacker (live, cooldown 0, undocked)
engaging the distinct targets t0 :: ts in one simultaneous batch is counted
with target_count k = the number of targets, but in the damage pass only its
first engagement deposits WEAPON_DAMAGE / k — on t0 alone — because that
deposit sets the attacker's weapon cooldown (positive by assumption) and the
eligibility re-check then skips the remaining engagements, leaving every
other target with no deposit at all; the attacker ends the pass with its
cooldown set to WEAPON_COOLDOWN. -/
theorem c5_amended_first_engagement_only (C : Consts) (dist : Location → Location → ℚ)
    (fuel : ℕ) (t : ℚ) (st : HState) (p i : ℕ) (atk : Ship)
    (hwcd : 0 < C.WEAPON_COOLDOWN)
    (hg : alist_get (p, i) st.map.ships = some atk)
    (ha : atk.is_alive) (hcd : atk.weapon_cooldown = 0)
    (hds : atk.docking_status = DockingStatus.Undocked)
    (t0 : ℕ × ℕ) (ts : List (ℕ × ℕ))
    (hts : ∀ k ∈ t0 :: ts, k ≠ (p, i) ∧ ∃ sh, alist_get k st.map.ships = some sh ∧
      sh.docking_status ≠ DockingStatus.Undocked)
    (ht0 : t0 ∉ ts) :
    (loop1_run C dist fuel (attack_evs p i t (t0 :: ts))
        ⟨st, fun _ => 0, fun _ => []⟩).target_count (EntityId.ship p i) =
      (t0 :: ts).length ∧
    dm_get t0 (loop2_run C (loop1_run C dist fuel (attack_evs p i t (t0 :: ts))
        ⟨st, fun _ => 0, fun _ => []⟩).target_count
        (attack_evs p i t (t0 :: ts))
        ((loop1_run C dist fuel (attack_evs p i t (t0 :: ts))
        ⟨st, fun _ => 0, fun _ => []⟩).st, [])).2 =
      (C.WEAPON_DAMAGE : ℚ) / ((t0 :: ts).length : ℚ) ∧
    (∀ k ∈ ts, dm_get k (loop2_run C (loop1_run C dist fuel (attack_evs p i t (t0 :: ts))
        ⟨st, fun _ => 0, fun _ => []⟩).target_count
        (attack_evs p i t (t0 :: ts))
        ((loop1_run C dist fuel (attack_evs p i t (t0 :: ts))
        ⟨st, fun _ => 0, fun _ => []⟩).st, [])).2 = 0) ∧
    alist_get (p, i) (loop2_run C (loop1_run C dist fuel (attack_evs p i t (t0 :: ts))
        ⟨st, fun _ => 0, fun _ => []⟩).target_count
        (attack_evs p i t (t0 :: ts))
        ((loop1_run C dist fuel (attack_evs p i t (t0 :: ts))
        ⟨st, fun _ => 0, fun _ => []⟩).st, [])).1.map.ships =
      some { atk with weapon_cooldown := C.WEAPON_COOLDOWN } := by
  have h := attack_batch_run C dist fuel t st p i atk hwcd hg ha hcd hds t0 ts
    hts ht0
  exact ⟨h.1, h.2.2.1, h.2.2.2.1, h.2.2.2.2⟩

/-- C10, amended claim. The attacker's fleet damage_dealt counter is
credited the full WEAPON_DAMAGE for each of its k engagements of the batch,
while the damage deposited by that attacker totals only WEAPON_DAMAGE / k
(all of it on its first target, none on the others), so the counter need not
equal the damage applied. -/
theorem c10_amended_counter_full_damage (C : Consts) (dist : Location → Location → ℚ)
    (fuel : ℕ) (t : ℚ) (st : HState) (p i : ℕ) (atk : Ship)
    (hwcd : 0 < C.WEAPON_COOLDOWN)
    (hg : alist_get (p, i) st.map.ships = some atk)
    (ha : atk.is_alive) (hcd : atk.weapon_cooldown = 0)
    (hds : atk.docking_status = DockingStatus.Undocked)
    (t0 : ℕ × ℕ) (ts : List (ℕ × ℕ))
    (hts : ∀ k ∈ t0 :: ts, k ≠ (p, i) ∧ ∃ sh, alist_get k st.map.ships = some sh ∧
      sh.docking_status ≠ DockingStatus.Undocked)
    (ht0 : t0 ∉ ts) :
    (loop1_run C dist fuel (attack_evs p i t (t0 :: ts))
        ⟨st, fun _ => 0, fun _ => []⟩).st.damage_dealt p =
      st.damage_dealt p + (t0 :: ts).length * C.WEAPON_DAMAGE ∧
    dm_get t0 (loop2_run C (loop1_run C dist fuel (attack_evs p i t (t0 :: ts))
        ⟨st, fun _ => 0, fun _ => []⟩).target_count
        (attack_evs p i t (t0 :: ts))
        ((loop1_run C dist fuel (attack_evs p i t (t0 :: ts))
        ⟨st, fun _ => 0, fun _ => []⟩).st, [])).2 =
      (C.WEAPON_DAMAGE : ℚ) / ((t0 :: ts).length : ℚ) ∧
    (∀ k ∈ ts, dm_get k (loop2_run C (loop1_run C dist fuel (attack_evs p i t (t0 :: ts))
        ⟨st, fun _ => 0, fun _ => []⟩).target_count
        (attack_evs p i t (t0 :: ts))
        ((loop1_run C dist fuel (attack_evs p i t (t0 :: ts))
        ⟨st, fun _ => 0, fun _ => []⟩).st, [])).2 = 0) := by
  have h := attack_batch_run C dist fuel t st p i atk hwcd hg ha hcd hds t0 ts
    hts ht0
  exact ⟨h.2.1, h.2.2.1, h.2.2.2.1⟩

/-- C5, witness: the amended claim at the concrete two-target scenario. -/
theorem c5_amended_first_engagement_only_witness :
    (loop1_run testConsts distZero 8 (attack_evs 0 0 0 [(1, 0), (1, 1)])
        ⟨attackState, fun _ => 0, fun _ => []⟩).target_count (EntityId.ship 0 0) =
      [((1 : ℕ), (0 : ℕ)), (1, 1)].length ∧
    dm_get (1, 0) (loop2_run testConsts (loop1_run testConsts distZero 8 (attack_evs 0 0 0 [(1, 0), (1, 1)])
        ⟨attackState, fun _ => 0, fun _ => []⟩).target_count
        (attack_evs 0 0 0 [(1, 0), (1, 1)])
        ((loop1_run testConsts distZero 8 (attack_evs 0 0 0 [(1, 0), (1, 1)])
        ⟨attackState, fun _ => 0, fun _ => []⟩).st, [])).2 =
      (testConsts.WEAPON_DAMAGE : ℚ) / (([((1 : ℕ), (0 : ℕ)), (1, 1)]).length : ℚ) ∧
    (∀ k ∈ [((1 : ℕ), (1 : ℕ))], dm_get k (loop2_run testConsts (loop1_run testConsts distZero 8 (attack_evs 0 0 0 [(1, 0), (1, 1)])
        ⟨attackState, fun _ => 0, fun _ => []⟩).target_count
        (attack_evs 0 0 0 [(1, 0), (1, 1)])
        ((loop1_run testConsts distZero 8 (attack_evs 0 0 0 [(1, 0), (1, 1)])
        ⟨attackState, fun _ => 0, fun _ => []⟩).st, [])).2 = 0) ∧
    alist_get (0, 0) (loop2_run testConsts (loop1_run testConsts distZero 8 (attack_evs 0 0 0 [(1, 0), (1, 1)])
        ⟨attackState, fun _ => 0, fun _ => []⟩).target_count
        (attack_evs 0 0 0 [(1, 0), (1, 1)])
        ((loop1_run testConsts distZero 8 (attack_evs 0 0 0 [(1, 0), (1, 1)])
        ⟨attackState, fun _ => 0, fun _ => []⟩).st, [])).1.map.ships =
      some { mkShip 255 DockingStatus.Undocked 0 with
        weapon_cooldown := testConsts.WEAPON_COOLDOWN } :=
  c5_amended_first_engagement_only testConsts distZero 8 0 attackState 0 0
    (mkShip 255 DockingStatus.Undocked 0) (by decide) rfl (by decide) rfl rfl
    (1, 0) [(1, 1)]
    (by
      intro k hk
      rcases List.mem_cons.mp hk with rfl | hk2
      · exact ⟨by decide, mkShip 255 DockingStatus.Docked 0, rfl, by decide⟩
      · rcases List.mem_cons.mp hk2 with rfl | hk3
        · exact ⟨by decide, mkShip 255 DockingStatus.Docked 0, rfl, by decide⟩
        · exact absurd hk3 (List.not_mem_nil k))
    (by decide)

/-- C10, witness: the amended claim at the concrete two-target scenario. -/
theorem c10_amended_counter_full_damage_witness :
    (loop1_run testConsts distZero 8 (attack_evs 0 0 0 [(1, 0), (1, 1)])
        ⟨attackState, fun _ => 0, fun _ => []⟩).st.damage_dealt 0 =
      attackState.damage_dealt 0 +
        [((1 : ℕ), (0 : ℕ)), (1, 1)].length * testConsts.WEAPON_DAMAGE ∧
    dm_get (1, 0) (loop2_run testConsts (loop1_run testConsts distZero 8 (attack_evs 0 0 0 [(1, 0), (1, 1)])
        ⟨attackState, fun _ => 0, fun _ => []⟩).target_count
        (attack_evs 0 0 0 [(1, 0), (1, 1)])
        ((loop1_run testConsts distZero 8 (attack_evs 0 0 0 [(1, 0), (1, 1)])
        ⟨attackState, fun _ => 0, fun _ => []⟩).st, [])).2 =
      (testConsts.WEAPON_DAMAGE : ℚ) / (([((1 : ℕ), (0 : ℕ)), (1, 1)]).length : ℚ) ∧
    (∀ k ∈ [((1 : ℕ), (1 : ℕ))], dm_get k (loop2_run testConsts (loop1_run testConsts distZero 8 (attack_evs 0 0 0 [(1, 0), (1, 1)])
        ⟨attackState, fun _ => 0, fun _ => []⟩).target_count
        (attack_evs 0 0 0 [(1, 0), (1, 1)])
        ((loop1_run testConsts distZero 8 (attack_evs 0 0 0 [(1, 0), (1, 1)])
        ⟨attackState, fun _ => 0, fun _ => []⟩).st, [])).2 = 0) :=
  c10_amended_counter_full_damage testConsts distZero 8 0 attackState 0 0
    (mkShip 255 DockingStatus.Undocked 0) (by decide) rfl (by decide) rfl rfl
    (1, 0) [(1, 1)]
    (by
      intro k hk
      rcases List.mem_cons.mp hk with rfl | hk2
      · exact ⟨by decide, mkShip 255 DockingStatus.Docked 0, rfl, by decide⟩
      · rcases List.mem_cons.mp hk2 with rfl | hk3
        · exact ⟨by decide, mkShip 255 DockingStatus.Docked 0, rfl, by decide⟩
        · exact absurd hk3 (List.not_mem_nil k))
    (by decide)

/-- Appending a destruction record for a different entity does not change an
entity's destruction records. -/
theorem destroyed_for_append_ne (id : EntityId) (st : HState) (rec : DestroyRec)
    (h : rec.id ≠ id) :
    destroyed_for id { st with destroyed := st.destroyed ++ [rec] } =
      destroyed_for id st := by
  simp [destroyed_for, List.filter_append, h]

/-- The docked-unit reset fold of a node's destruction does not change any
entity's health. -/
theorem reset_fold_health (owner : ℕ) (id : EntityId) :
    ∀ (l : List ℕ) (m : GameMap),
    health_of (l.foldl (fun m0 idx => modify_ship m0 owner idx
      Ship.reset_docking) m) id = health_of m id := by
  intro l
  induction l with
  | nil => intro m; rfl
  | cons j rest ih =>
    intro m
    rw [List.foldl_cons, ih]
    exact health_of_modify_ship m owner j Ship.reset_docking (fun s => rfl) id

/-- The destruction guards of the resolution engine: an entity that is
already destroyed (health 0) is never modified again by damage_entity or
kill_entity — its health stays 0 and no further DestroyedEvent is recorded
for it — whatever entity the call targets and whatever the cascade does. -/
theorem dead_invariant (C : Consts) (dist : Location → Location → ℚ)
    (id : EntityId) :
    ∀ fuel : ℕ,
    (∀ (id2 : EntityId) (d : ℕ) (t : ℚ) (st : HState),
      health_of st.map id = some 0 →
      health_of (damage_entity C dist fuel id2 d t st).map id = some 0 ∧
      destroyed_for id (damage_entity C dist fuel id2 d t st) =
        destroyed_for id st) ∧
    (∀ (id2 : EntityId) (t : ℚ) (st : HState),
      health_of st.map id = some 0 →
      health_of (kill_entity C dist fuel id2 t st).map id = some 0 ∧
      destroyed_for id (kill_entity C dist fuel id2 t st) =
        destroyed_for id st) := by
  intro fuel
  induction fuel with
  | zero =>
    exact ⟨fun _ _ _ _ h => ⟨h, rfl⟩, fun _ _ _ h => ⟨h, rfl⟩⟩
  | succ n ih =>
    obtain ⟨ihd, ihk⟩ := ih
    constructor
    · -- damage_entity (n + 1)
      intro id2 d t st hdead
      simp only [damage_entity]
      cases hh : health_of st.map id2 with
      | none => exact ⟨hdead, rfl⟩
      | some h =>
        dsimp only
        split_ifs with hle
        · exact ihk id2 t st hdead
        · have hne : id ≠ id2 := by
            intro he
            rw [← he, hdead] at hh
            have h0 : h = 0 := (Option.some.inj hh).symm
            exact hle (h0 ▸ Nat.zero_le d)
          exact ⟨(health_of_set_health_ne st.map id id2 (h - d) hne).trans hdead,
            rfl⟩
    · -- kill_entity (n + 1)
      intro id2 t st hdead
      simp only [kill_entity]
      cases id2 with
      | invalid => exact ⟨hdead, rfl⟩
      | ship p2 i2 =>
        dsimp only
        cases hg : alist_get (p2, i2) st.map.ships with
        | none => exact ⟨hdead, rfl⟩
        | some sh =>
          dsimp only
          by_cases halive : sh.is_alive
          · rw [if_pos halive]
            have hne : id ≠ EntityId.ship p2 i2 := by
              intro he
              rw [he] at hdead
              simp only [health_of, hg, Option.map_some] at hdead
              have h0 : sh.health = 0 := Option.some.inj hdead
              rw [Ship.is_alive, h0] at halive
              exact absurd halive (lt_irrefl 0)
            have hrec : (DestroyRec.mk (EntityId.ship p2 i2)
                (sh.location.move_by sh.velocity t) sh.radius t).id ≠ id :=
              Ne.symm hne
            by_cases hdock : sh.docking_status ≠ DockingStatus.Undocked
            · rw [if_pos hdock]
              refine ⟨?_, ?_⟩
              · dsimp only
                rw [raw_kill]
                refine (health_of_set_health_ne _ id _ 0 hne).trans ?_
                have hf1 : ∀ s0 : Ship,
                    ({ s0 with docking_status := DockingStatus.Undocked, docked_planet := 0 } : Ship).health = s0.health :=
                  fun s0 => rfl
                refine (health_of_modify_ship _ p2 i2
                  (fun s0 : Ship => { s0 with docking_status := DockingStatus.Undocked, docked_planet := 0 })
                  hf1 id).trans ?_
                exact (health_of_modify_planet _ sh.docked_planet
                  (fun pl : Planet => { pl with docked_ships := pl.docked_ships.filter (fun j => decide (j ≠ i2)) })
                  (fun pl => rfl) id).trans hdead
              · dsimp only [destroyed_for]
                simp [List.filter_append, Ne.symm hne]
            · rw [if_neg hdock]
              refine ⟨?_, ?_⟩
              · dsimp only
                rw [raw_kill]
                exact (health_of_set_health_ne _ id _ 0 hne).trans hdead
              · dsimp only [destroyed_for]
                simp [List.filter_append, Ne.symm hne]
          · rw [if_neg halive]
            exact ⟨hdead, rfl⟩
      | planet n2 =>
        dsimp only
        cases hgp : st.map.planets[n2]? with
        | none => exact ⟨hdead, rfl⟩
        | some planet =>
          dsimp only
          by_cases halive : planet.is_alive
          · rw [if_pos halive]
            have hne : id ≠ EntityId.planet n2 := by
              intro he
              rw [he] at hdead
              simp only [health_of, hgp, Option.map_some] at hdead
              have h0 : planet.health = 0 := Option.some.inj hdead
              rw [Planet.is_alive, h0] at halive
              exact absurd halive (lt_irrefl 0)
            dsimp only
            -- the state after the record push and the docked-unit resets
            set st1 : HState := { st with destroyed := st.destroyed ++
              [DestroyRec.mk (EntityId.planet n2) planet.location planet.radius t] }
              with hst1
            have hd1 : health_of st1.map id = some 0 := hdead
            have hfold : ∀ (ids : List EntityId) (st' : HState),
                health_of st'.map id = some 0 →
                health_of ((ids.foldl (fun acc target_id =>
                  if target_id ≠ EntityId.planet n2 then
                    match location_of acc.map target_id,
                        radius_of acc.map target_id with
                    | some tloc, some trad =>
                      damage_entity C dist n target_id
                        (planet_explosion_damage C planet
                          (dist planet.location tloc - trad)) t acc
                    | _, _ => acc
                  else acc) st').map) id = some 0 ∧
                destroyed_for id (ids.foldl (fun acc target_id =>
                  if target_id ≠ EntityId.planet n2 then
                    match location_of acc.map target_id,
                        radius_of acc.map target_id with
                    | some tloc, some trad =>
                      damage_entity C dist n target_id
                        (planet_explosion_damage C planet
                          (dist planet.location tloc - trad)) t acc
                    | _, _ => acc
                  else acc) st') = destroyed_for id st' := by
              intro ids
              induction ids with
              | nil => intro st' h; exact ⟨h, rfl⟩
              | cons tid rest ihl =>
                intro st' h
                rw [List.foldl_cons]
                have hstep : health_of ((if tid ≠ EntityId.planet n2 then
                    match location_of st'.map tid, radius_of st'.map tid with
                    | some tloc, some trad =>
                      damage_entity C dist n tid
                        (planet_explosion_damage C planet
                          (dist planet.location tloc - trad)) t st'
                    | _, _ => st'
                  else st').map) id = some 0 ∧
                    destroyed_for id (if tid ≠ EntityId.planet n2 then
                    match location_of st'.map tid, radius_of st'.map tid with
                    | some tloc, some trad =>
                      damage_entity C dist n tid
                        (planet_explosion_damage C planet
                          (dist planet.location tloc - trad)) t st'
                    | _, _ => st'
                  else st') = destroyed_for id st' := by
                  split_ifs with htid
                  · cases location_of st'.map tid with
                    | none => exact ⟨h, rfl⟩
                    | some tloc =>
                      cases radius_of st'.map tid with
                      | none => exact ⟨h, rfl⟩
                      | some trad => exact ihd tid _ t st' h
                  · exact ⟨h, rfl⟩
                obtain ⟨hA, hB⟩ := hstep
                obtain ⟨hC, hD⟩ := ihl _ hA
                exact ⟨hC, hD.trans hB⟩
            have hd2 : ∀ m2 : GameMap, health_of m2 id = some 0 →
                health_of (raw_kill m2 (EntityId.planet n2)) id = some 0 := by
              intro m2 h2
              rw [raw_kill]
              exact (health_of_set_health_ne m2 id _ 0 hne).trans h2
            refine ⟨?_, ?_⟩
            · apply hd2
              refine (hfold _ _ ?_).1
              rw [reset_fold_health]
              exact hdead
            · have hrecs : destroyed_for id st1 = destroyed_for id st := by
                rw [hst1]
                exact destroyed_for_append_ne id st _ (Ne.symm hne)
              refine Eq.trans ?_ hrecs
              refine (hfold _ _ ?_).2
              rw [reset_fold_health]
              exact hdead
          · rw [if_neg halive]
            exact ⟨hdead, rfl⟩

/-- Setting a weapon cooldown does not change any entity's health. -/
theorem health_of_set_cooldown (m : GameMap) (sid : EntityId) (cd : ℕ)
    (id : EntityId) : health_of (set_cooldown m sid cd) id = health_of m id := by
  cases sid with
  | ship p i =>
    exact health_of_modify_ship m p i
      (fun s : Ship => { s with weapon_cooldown := cd }) (fun s => rfl) id
  | planet n => rfl
  | invalid => rfl

/-- One event of the first resolution pass never touches an entity that is
already destroyed. -/
theorem batch_step1_dead (C : Consts) (dist : Location → Location → ℚ)
    (fuel : ℕ) (ev : SimulationEvent) (acc : BatchAcc) (id : EntityId)
    (h : health_of acc.st.map id = some 0) :
    health_of (batch_step1 C dist fuel ev acc).st.map id = some 0 ∧
    destroyed_for id (batch_step1 C dist fuel ev acc).st =
      destroyed_for id acc.st := by
  obtain ⟨hd, hk⟩ := dead_invariant C dist id fuel
  rcases ev with ⟨ty, id1, id2, tm⟩
  cases ty
  · -- Attack
    simp only [batch_step1]
    have h1 := update_targets_st C id1 id2 tm acc
    have h2 := update_targets_st C id2 id1 tm (update_targets C id1 id2 tm acc)
    refine ⟨?_, ?_⟩
    · rw [h2.1, h1.1]
      exact h
    · simp only [destroyed_for, h2.2, h1.2]
  · -- Collision
    simp only [batch_step1, resolve_collision]
    cases hcd : compute_damage acc.st.map id1 id2 with
    | none => exact ⟨h, rfl⟩
    | some dmg =>
      dsimp only
      obtain ⟨hA, hB⟩ := hd id1 dmg.1 tm acc.st h
      obtain ⟨hC, hD⟩ := hd id2 dmg.2 tm _ hA
      exact ⟨hC, hD.trans hB⟩
  · -- Desertion
    simp only [batch_step1]
    cases hh : health_of acc.st.map id1 with
    | none => exact ⟨h, rfl⟩
    | some dmg =>
      dsimp only
      exact hd id1 dmg tm acc.st h

/-- One direction of an Attack engagement in the second pass never touches
an entity that is already destroyed (it can only set a cooldown). -/
theorem update_damage_dead (C : Consts) (tc : EntityId → ℕ)
    (src target : EntityId) (acc : HState × List ((ℕ × ℕ) × ℚ)) (id : EntityId)
    (h : health_of acc.1.map id = some 0) :
    health_of (update_damage C tc src target acc).1.map id = some 0 ∧
    (update_damage C tc src target acc).1.destroyed = acc.1.destroyed := by
  simp only [update_damage]
  cases hg : get_ship_id acc.1.map src with
  | none => exact ⟨h, rfl⟩
  | some sh =>
    dsimp only
    split_ifs with hel
    · exact ⟨h, rfl⟩
    · exact ⟨(health_of_set_cooldown acc.1.map src C.WEAPON_COOLDOWN id).trans h,
        rfl⟩

/-- One event of the second resolution pass never touches an entity that is
already destroyed. -/
theorem batch_step2_dead (C : Consts) (tc : EntityId → ℕ)
    (ev : SimulationEvent) (acc : HState × List ((ℕ × ℕ) × ℚ)) (id : EntityId)
    (h : health_of acc.1.map id = some 0) :
    health_of (batch_step2 C tc ev acc).1.map id = some 0 ∧
    (batch_step2 C tc ev acc).1.destroyed = acc.1.destroyed := by
  simp only [batch_step2]
  split_ifs with hty
  · obtain ⟨h1, h1d⟩ := update_damage_dead C tc ev.id1 ev.id2 acc id h
    obtain ⟨h2, h2d⟩ := update_damage_dead C tc ev.id2 ev.id1 _ id h1
    exact ⟨h2, h2d.trans h1d⟩
  · exact ⟨h, rfl⟩

/-- Applying the accumulated per-target damage never touches an entity that
is already destroyed. -/
theorem process_damage_dead (C : Consts) (dist : Location → Location → ℚ)
    (fuel : ℕ) (t : ℚ) (id : EntityId) :
    ∀ (dm : List ((ℕ × ℕ) × ℚ)) (st : HState),
    health_of st.map id = some 0 →
    health_of (process_damage C dist fuel dm t st).map id = some 0 ∧
    destroyed_for id (process_damage C dist fuel dm t st) =
      destroyed_for id st := by
  intro dm
  induction dm with
  | nil => intro st h; exact ⟨h, rfl⟩
  | cons kv rest ih =>
    intro st h
    have hstep : process_damage C dist fuel (kv :: rest) t st =
        process_damage C dist fuel rest t (damage_entity C dist fuel
          (EntityId.ship kv.1.1 kv.1.2) (⌊kv.2⌋).toNat t st) := rfl
    rw [hstep]
    obtain ⟨hA, hB⟩ := (dead_invariant C dist id fuel).1
      (EntityId.ship kv.1.1 kv.1.2) (⌊kv.2⌋).toNat t st h
    obtain ⟨hC, hD⟩ := ih _ hA
    exact ⟨hC, hD.trans hB⟩

/-- The whole first pass never touches an entity that is already destroyed. -/
theorem loop1_dead (C : Consts) (dist : Location → Location → ℚ) (fuel : ℕ)
    (id : EntityId) :
    ∀ (evs : List SimulationEvent) (acc : BatchAcc),
    health_of acc.st.map id = some 0 →
    health_of (loop1_run C dist fuel evs acc).st.map id = some 0 ∧
    destroyed_for id (loop1_run C dist fuel evs acc).st =
      destroyed_for id acc.st := by
  intro evs
  induction evs with
  | nil => intro acc h; exact ⟨h, rfl⟩
  | cons ev rest ih =>
    intro acc h
    have hstep : loop1_run C dist fuel (ev :: rest) acc =
        loop1_run C dist fuel rest (batch_step1 C dist fuel ev acc) := rfl
    rw [hstep]
    obtain ⟨hA, hB⟩ := batch_step1_dead C dist fuel ev acc id h
    obtain ⟨hC, hD⟩ := ih _ hA
    exact ⟨hC, hD.trans hB⟩

/-- The whole second pass never touches an entity that is already
destroyed. -/
theorem loop2_dead (C : Consts) (tc : EntityId → ℕ) (id : EntityId) :
    ∀ (evs : List SimulationEvent) (acc : HState × List ((ℕ × ℕ) × ℚ)),
    health_of acc.1.map id = some 0 →
    health_of (loop2_run C tc evs acc).1.map id = some 0 ∧
    (loop2_run C tc evs acc).1.destroyed = acc.1.destroyed := by
  intro evs
  induction evs with
  | nil => intro acc h; exact ⟨h, rfl⟩
  | cons ev rest ih =>
    intro acc h
    have hstep : loop2_run C tc (ev :: rest) acc =
        loop2_run C tc rest (batch_step2 C tc ev acc) := rfl
    rw [hstep]
    obtain ⟨hA, hB⟩ := batch_step2_dead C tc ev acc id h
    obtain ⟨hC, hD⟩ := ih _ hA
    exact ⟨hC, hD.trans hB⟩

/-- Destruction records only depend on the destroyed list. -/
theorem destroyed_for_congr (id : EntityId) (x y : HState)
    (h : x.destroyed = y.destroyed) : destroyed_for id x = destroyed_for id y := by
  simp [destroyed_for, h]

/-- Resolving a whole simultaneous batch never touches an entity that is
already destroyed: its health stays 0 and no DestroyedEvent is added for
it. -/
theorem batch_core_dead (C : Consts) (dist : Location → Location → ℚ)
    (fuel : ℕ) (evs : List SimulationEvent) (st : HState) (id : EntityId)
    (h : health_of st.map id = some 0) :
    health_of (batch_core C dist fuel evs st).map id = some 0 ∧
    destroyed_for id (batch_core C dist fuel evs st) = destroyed_for id st := by
  obtain ⟨h1, h1d⟩ := loop1_dead C dist fuel id evs
    ⟨st, fun _ => 0, fun _ => []⟩ h
  obtain ⟨h2, h2d⟩ := loop2_dead C
    (loop1_run C dist fuel evs ⟨st, fun _ => 0, fun _ => []⟩).target_count id evs
    ((loop1_run C dist fuel evs ⟨st, fun _ => 0, fun _ => []⟩).st, []) h1
  obtain ⟨h3, h3d⟩ := process_damage_dead C dist fuel (batch_time evs) id
    (loop2_run C (loop1_run C dist fuel evs
      ⟨st, fun _ => 0, fun _ => []⟩).target_count evs
      ((loop1_run C dist fuel evs ⟨st, fun _ => 0, fun _ => []⟩).st, [])).2
    (loop2_run C (loop1_run C dist fuel evs
      ⟨st, fun _ => 0, fun _ => []⟩).target_count evs
      ((loop1_run C dist fuel evs ⟨st, fun _ => 0, fun _ => []⟩).st, [])).1 h2
  refine ⟨h3, ?_⟩
  refine h3d.trans ?_
  refine (destroyed_for_congr id _ _ h2d).trans h1d

/-- C9. During resolution of every simultaneous batch no event's effects are
applied against an entity destroyed by an earlier event of the same batch:
once an entity's health is 0, the remainder of the batch (both passes and
the final damage application) leaves its health at 0 and records no further
DestroyedEvent for it. Moreover, a batch in which every event references a
no-longer-valid entity (destroyed in an earlier batch) is dropped by the
filter and skipped without any state change. -/
theorem c9_dead_entities_untouched (C : Consts)
    (dist : Location → Location → ℚ) (fuel : ℕ)
    (evs : List SimulationEvent) (st : HState) :
    (∀ id, health_of st.map id = some 0 →
      health_of (batch_core C dist fuel evs st).map id = some 0 ∧
      destroyed_for id (batch_core C dist fuel evs st) = destroyed_for id st) ∧
    ((∀ ev ∈ evs, is_valid st.map ev.id1 = false ∨
        is_valid st.map ev.id2 = false) →
      process_batch C dist fuel evs st = st) := by
  constructor
  · intro id h
    exact batch_core_dead C dist fuel evs st id h
  · intro hall
    have hfil : evs.filter (fun ev => is_valid st.map ev.id1 &&
        is_valid st.map ev.id2) = [] := by
      rw [List.filter_eq_nil_iff]
      intro ev hev
      rcases hall ev hev with h1 | h1 <;> simp [h1]
    simp only [process_batch, hfil]
    rfl

/-- C9, witness: in a concrete map holding a destroyed-but-unpurged ship,
resolving a batch that collides a live ship into the corpse leaves the
corpse at health 0 with no new destruction record, and a batch whose only
event references an invalid entity leaves the state unchanged. -/
theorem c9_dead_entities_untouched_witness :
    health_of (batch_core testConsts distZero 6
      [⟨SimulationEventType.Collision, EntityId.ship 1 0, EntityId.ship 0 0, 0⟩]
      deadState).map (EntityId.ship 0 0) = some 0 ∧
    destroyed_for (EntityId.ship 0 0) (batch_core testConsts distZero 6
      [⟨SimulationEventType.Collision, EntityId.ship 1 0, EntityId.ship 0 0, 0⟩]
      deadState) = destroyed_for (EntityId.ship 0 0) deadState ∧
    process_batch testConsts distZero 6
      [⟨SimulationEventType.Collision, EntityId.invalid, EntityId.ship 1 0, 0⟩]
      deadState = deadState := by
  refine ⟨?_, ?_, ?_⟩
  · exact ((c9_dead_entities_untouched testConsts distZero 6
      [⟨SimulationEventType.Collision, EntityId.ship 1 0, EntityId.ship 0 0, 0⟩]
      deadState).1 (EntityId.ship 0 0) rfl).1
  · exact ((c9_dead_entities_untouched testConsts distZero 6
      [⟨SimulationEventType.Collision, EntityId.ship 1 0, EntityId.ship 0 0, 0⟩]
      deadState).1 (EntityId.ship 0 0) rfl).2
  · exact (c9_dead_entities_untouched testConsts distZero 6
      [⟨SimulationEventType.Collision, EntityId.invalid, EntityId.ship 1 0, 0⟩]
      deadState).2 (by decide)

end Halite
